import Mathlib

/-!
Verification of the deal.II multigrid cycle engine
(`include/deal.II/multigrid/multigrid.templates.h`).

The engine is a recursive state machine over four level-indexed vector
stores (`defect`, `solution`, `t`, `defect2`).  We embed it shallowly:

* vectors live in an arbitrary additive commutative group `V`
  (the code only uses `= 0.`, `+=`, `-=`, `sadd(±1, ±1, ·)`, `equ(-1, ·)`);
* the collaborators (level operator, smoothers, transfer, coarse solver,
  optional edge operators) are opaque functions gathered in `Collab`;
* each level-indexed store is a total function `Nat → V`;
* `deallog` diagnostics become a list of structured events appended to the
  state, gated by the integer `debug` verbosity exactly as in the source.

`level_v_step`, `level_step`, `cycle`, `vcycle` are translated statement by
statement from the source; the range-management functions (`reinit`,
`set_minlevel`, ...) are modelled separately on a small record of the level
window, with the `Assert` macros rendered as an `Except` error (in a debug
build a failed `Assert` aborts before any state mutation).
-/

namespace Multigrid

/-- `Multigrid::Cycle` enumeration (multigrid.h). -/
inductive Cycle where
  | v_cycle
  | w_cycle
  | f_cycle
deriving DecidableEq

/-- The `cychar` computed by the `switch` at the top of `level_step`
(multigrid.templates.h:224-236). -/
def Cycle.char : Cycle → Char
  | .v_cycle => 'V'
  | .f_cycle => 'F'
  | .w_cycle => 'W'

/-- One `deallog` emission.  Each constructor corresponds to one of the
distinct `deallog << ...` statements of `level_v_step` (`v*` constructors)
and `level_step`; the `ℚ` payloads carry the reported `l2_norm()` values. -/
inductive MGEvent where
  | vEnterLevel (level : Nat)
  | vDefectNorm (q : ℚ)
  | vCoarseLevel (level : Nat)
  | vSmoothingLevel (level : Nat)
  | vSolutionNorm (q : ℚ)
  | vResidualLevel (level : Nat)
  | vResidualNorm (q : ℚ)
  | vNormT (level : Nat) (q : ℚ)
  | vProlongateNorm (q : ℚ)
  | vLeaveLevel (level : Nat)
  | enterLevel (cychar : Char) (level : Nat)
  | defectNorm (cychar : Char) (q : ℚ)
  | coarseLevel (cychar : Char) (level : Nat)
  | smoothingLevel (cychar : Char) (level : Nat)
  | solutionNorm (cychar : Char) (q : ℚ)
  | residualLevel (cychar : Char) (level : Nat)
  | leaveLevel (cychar : Char) (level : Nat)
deriving DecidableEq

/-- Does the event witness a coarse-solver invocation?  (`deallog <<
"Coarse level"` in `level_v_step`, `deallog << cychar << "-cycle coarse
level"` in `level_step`; both are emitted, at `debug > 0`, in the branch
that calls `(*coarse)(...)` and nowhere else.) -/
def isCoarseEvent : MGEvent → Bool
  | .vCoarseLevel _ => true
  | .coarseLevel _ _ => true
  | _ => false

/-- The collaborators borrowed by `Multigrid<VectorType>`: level operator
`matrix`, smoothers, transfer, coarse solver, the `l2_norm` diagnostic
query, and the four optional edge-operator slots (null pointer = `none`).
`matrix_vmult l v` is the value written by `matrix->vmult(l, dst, v)`;
`restrict_and_add l acc v` is the new value of `acc` after
`transfer->restrict_and_add(l, acc, v)`; `prolongate l v` overwrites its
destination; `pre_smooth l u rhs` / `post_smooth l u rhs` / `coarse l u rhs`
return the new value of the solution argument `u`.  Edge slots are used via
`vmult` / `vmult_add` (`edge_out`, `edge_down`) and `Tvmult` (`edge_in`,
`edge_up`); the stored function gives the product, accumulation is explicit
at the call site. -/
structure Collab (V : Type) where
  matrix_vmult : Nat → V → V
  pre_smooth : Nat → V → V → V
  post_smooth : Nat → V → V → V
  restrict_and_add : Nat → V → V → V
  prolongate : Nat → V → V
  coarse : Nat → V → V → V
  l2_norm : V → ℚ
  edge_out : Option (Nat → V → V)
  edge_in : Option (Nat → V → V)
  edge_down : Option (Nat → V → V)
  edge_up : Option (Nat → V → V)

/-- The mutable per-level state of the engine: the four vector stores and
the `deallog` stream. -/
structure MGState (V : Type) where
  solution : Nat → V
  defect : Nat → V
  t : Nat → V
  defect2 : Nat → V
  log : List MGEvent

/-- `solution[i] = v;` -/
def MGState.updSolution {V : Type} (s : MGState V) (i : Nat) (v : V) : MGState V :=
  { s with solution := Function.update s.solution i v }

/-- `defect[i] = v;` -/
def MGState.updDefect {V : Type} (s : MGState V) (i : Nat) (v : V) : MGState V :=
  { s with defect := Function.update s.defect i v }

/-- `t[i] = v;` -/
def MGState.updT {V : Type} (s : MGState V) (i : Nat) (v : V) : MGState V :=
  { s with t := Function.update s.t i v }

/-- `defect2[i] = v;` -/
def MGState.updDefect2 {V : Type} (s : MGState V) (i : Nat) (v : V) : MGState V :=
  { s with defect2 := Function.update s.defect2 i v }

/-- `if (debug > k) deallog << ...`: append an event when the gate is open. -/
def dlog {V : Type} (cond : Bool) (e : MGEvent) (s : MGState V) : MGState V :=
  if cond then { s with log := s.log ++ [e] } else s

section Engine

variable {V : Type} [AddCommGroup V]

/-- Fine-to-coarse half of the recursive case of `level_v_step`
(multigrid.templates.h:124-167): pre-smoothing, residual computation,
`edge_out` / `edge_down` corrections, restriction of the residual into
`defect[level-1]`, and zeroing of `solution[level-1]`. -/
def v_down_phase (c : Collab V) (debug level : Nat) (s₂ : MGState V) : MGState V :=
  let s₃ := dlog (debug > 1) (.vSmoothingLevel level) s₂
  -- pre_smooth->smooth(level, solution[level], defect[level]);
  let s₄ := s₃.updSolution level (c.pre_smooth level (s₃.solution level) (s₃.defect level))
  let s₅ := dlog (debug > 2) (.vSolutionNorm (c.l2_norm (s₄.solution level))) s₄
  let s₆ := dlog (debug > 1) (.vResidualLevel level) s₅
  -- matrix->vmult(level, t[level], solution[level]);
  let s₇ := s₆.updT level (c.matrix_vmult level (s₆.solution level))
  let s₈ := dlog (debug > 2) (.vResidualNorm (c.l2_norm (s₇.t level))) s₇
  -- if (edge_out != 0) { edge_out->vmult_add(level, t[level], solution[level]); ... }
  let s₉ := match c.edge_out with
    | some eo =>
        let sa := s₈.updT level (s₈.t level + eo level (s₈.solution level))
        dlog (debug > 2) (.vNormT level (c.l2_norm (sa.t level))) sa
    | none => s₈
  -- t[level].sadd(-1.0, 1.0, defect[level]);
  let s10 := s₉.updT level (-(s₉.t level) + s₉.defect level)
  -- if (edge_down != 0) { edge_down->vmult(level, t[level-1], solution[level]);
  --                       defect[level-1] -= t[level-1]; }
  let s11 := match c.edge_down with
    | some ed =>
        let sb := s10.updT (level - 1) (ed level (s10.solution level))
        sb.updDefect (level - 1) (sb.defect (level - 1) - sb.t (level - 1))
    | none => s10
  -- transfer->restrict_and_add(level, defect[level-1], t[level]);
  let s12 := s11.updDefect (level - 1)
    (c.restrict_and_add level (s11.defect (level - 1)) (s11.t level))
  -- solution[level-1] = 0.;
  s12.updSolution (level - 1) 0

/-- Coarse-to-fine half of the recursive case of `level_v_step`
(multigrid.templates.h:170-215): reset of `t`, prolongation, coarse-grid
correction, `edge_in` / `edge_up` transpose corrections into the defect
store, and post-smoothing. -/
def v_up_phase (c : Collab V) (debug level : Nat) (s14 : MGState V) : MGState V :=
  -- t[level] = 0.;
  let s15 := s14.updT level 0
  -- transfer->prolongate(level, t[level], solution[level-1]);
  let s16 := s15.updT level (c.prolongate level (s15.solution (level - 1)))
  let s17 := dlog (debug > 2) (.vProlongateNorm (c.l2_norm (s16.t level))) s16
  -- solution[level] += t[level];
  let s18 := s17.updSolution level (s17.solution level + s17.t level)
  -- if (edge_in != 0) { edge_in->Tvmult(level, t[level], solution[level]);
  --                     defect[level] -= t[level]; }
  let s19 := match c.edge_in with
    | some ei =>
        let sc := s18.updT level (ei level (s18.solution level))
        sc.updDefect level (sc.defect level - sc.t level)
    | none => s18
  -- if (edge_up != 0) { edge_up->Tvmult(level, t[level], solution[level-1]);
  --                     defect[level] -= t[level]; }
  let s20 := match c.edge_up with
    | some eu =>
        let sd := s19.updT level (eu level (s19.solution (level - 1)))
        sd.updDefect level (sd.defect level - sd.t level)
    | none => s19
  let s21 := dlog (debug > 2) (.vDefectNorm (c.l2_norm (s20.defect level))) s20
  let s22 := dlog (debug > 1) (.vSmoothingLevel level) s21
  -- post_smooth->smooth(level, solution[level], defect[level]);
  let s23 := s22.updSolution level
    (c.post_smooth level (s22.solution level) (s22.defect level))
  dlog (debug > 1) (.vLeaveLevel level) s23

/-- Entry diagnostics of `level_v_step` (multigrid.templates.h:111-115):
the two gated `deallog` statements executed before the base-case test. -/
def v_entry_phase (c : Collab V) (debug level : Nat) (s₀ : MGState V) : MGState V :=
  let s₁ := dlog (debug > 0) (.vEnterLevel level) s₀
  dlog (debug > 2) (.vDefectNorm (c.l2_norm (s₁.defect level))) s₁

/-- Base case of `level_v_step` (multigrid.templates.h:117-123):
`(*coarse)(level, solution[level], defect[level]); return;`. -/
def v_coarse_branch (c : Collab V) (debug level : Nat) (s₂ : MGState V) : MGState V :=
  let s₃ := dlog (debug > 0) (.vCoarseLevel level) s₂
  s₃.updSolution level (c.coarse level (s₃.solution level) (s₃.defect level))

/-- `Multigrid::level_v_step` (multigrid.templates.h:107-215).  The `0`
fallback of the inner match is unreachable for calls with
`minlevel ≤ level` (in C++ `level - 1` would wrap around at `0`; the
engine is only ever entered at `maxlevel ≥ minlevel`). -/
def level_v_step (c : Collab V) (minlevel debug : Nat) :
    Nat → MGState V → MGState V
  | level, s₀ =>
    let s₂ := v_entry_phase c debug level s₀
    if level = minlevel then
      v_coarse_branch c debug level s₂
    else
      match level with
      | 0 => s₂
      | l + 1 =>
        let sA := v_down_phase c debug (l + 1) s₂
        -- level_v_step(level-1);
        let sB := level_v_step c minlevel debug l sA
        v_up_phase c debug (l + 1) sB

/-- Fine-to-coarse half of the recursive case of `level_step`
(multigrid.templates.h:270-297): pre-smoothing against the local
right-hand side `t[level]`, residual computation, `edge_out` / `edge_down`
corrections, restriction into `defect2[level-1]` (not into the defect
store), and zeroing of `solution[level-1]`. -/
def g_down_phase (c : Collab V) (debug : Nat) (cychar : Char) (level : Nat)
    (s₄ : MGState V) : MGState V :=
  let s₅ := dlog (debug > 1) (.smoothingLevel cychar level) s₄
  -- pre_smooth->smooth(level, solution[level], t[level]);
  let s₆ := s₅.updSolution level (c.pre_smooth level (s₅.solution level) (s₅.t level))
  let s₇ := dlog (debug > 2) (.solutionNorm cychar (c.l2_norm (s₆.solution level))) s₆
  let s₈ := dlog (debug > 1) (.residualLevel cychar level) s₇
  -- matrix->vmult(level, t[level], solution[level]);
  let s₉ := s₈.updT level (c.matrix_vmult level (s₈.solution level))
  -- if (edge_out != 0) edge_out->vmult_add(level, t[level], solution[level]);
  let s10 := match c.edge_out with
    | some eo => s₉.updT level (s₉.t level + eo level (s₉.solution level))
    | none => s₉
  -- if (edge_down != 0) edge_down->vmult_add(level, defect2[level-1], solution[level]);
  let s11 := match c.edge_down with
    | some ed =>
        s10.updDefect2 (level - 1) (s10.defect2 (level - 1) + ed level (s10.solution level))
    | none => s10
  -- transfer->restrict_and_add(level, defect2[level-1], t[level]);
  let s12 := s11.updDefect2 (level - 1)
    (c.restrict_and_add level (s11.defect2 (level - 1)) (s11.t level))
  -- solution[level-1] = 0.;
  s12.updSolution (level - 1) 0

/-- Coarse-to-fine half of the recursive case of `level_step`
(multigrid.templates.h:317-348): reset of `t`, prolongation, coarse-grid
correction, `edge_in` / `edge_up` transpose applications written (each one
overwriting `t[level]`), recombination
`t[level] = -t[level] - defect2[level] + defect[level]`, and
post-smoothing against the recombined `t[level]`. -/
def g_up_phase (c : Collab V) (debug : Nat) (cychar : Char) (level : Nat)
    (s15 : MGState V) : MGState V :=
  -- t[level] = 0.;
  let s16 := s15.updT level 0
  -- transfer->prolongate(level, t[level], solution[level-1]);
  let s17 := s16.updT level (c.prolongate level (s16.solution (level - 1)))
  -- solution[level] += t[level];
  let s18 := s17.updSolution level (s17.solution level + s17.t level)
  -- if (edge_in != 0) edge_in->Tvmult(level, t[level], solution[level]);
  let s19 := match c.edge_in with
    | some ei => s18.updT level (ei level (s18.solution level))
    | none => s18
  -- if (edge_up != 0) edge_up->Tvmult(level, t[level], solution[level-1]);
  let s20 := match c.edge_up with
    | some eu => s19.updT level (eu level (s19.solution (level - 1)))
    | none => s19
  -- t[level].sadd(-1.,-1.,defect2[level]);
  let s21 := s20.updT level (-(s20.t level) - s20.defect2 level)
  -- t[level] += defect[level];
  let s22 := s21.updT level (s21.t level + s21.defect level)
  let s23 := dlog (debug > 2) (.defectNorm cychar (c.l2_norm (s22.t level))) s22
  let s24 := dlog (debug > 1) (.smoothingLevel cychar level) s23
  -- post_smooth->smooth(level, solution[level], t[level]);
  let s25 := s24.updSolution level
    (c.post_smooth level (s24.solution level) (s24.t level))
  dlog (debug > 1) (.leaveLevel cychar level) s25

/-- Entry block of `level_step` (multigrid.templates.h:238-260), executed
before the base-case test: entering diagnostic, downward propagation of
`defect2` (`defect2[level-1] = 0` followed by `restrict_and_add`), and the
local right-hand side `t[level] = -defect2[level] + defect[level]`. -/
def g_entry_phase (c : Collab V) (minlevel debug : Nat) (cychar : Char)
    (level : Nat) (s₀ : MGState V) : MGState V :=
  let s₁ := dlog (debug > 0) (.enterLevel cychar level) s₀
  -- if (level > minlevel) { defect2[level-1] = 0.;
  --   transfer->restrict_and_add(level, defect2[level-1], defect2[level]); }
  let s₂ :=
    if level > minlevel then
      let sa := s₁.updDefect2 (level - 1) 0
      sa.updDefect2 (level - 1)
        (c.restrict_and_add level (sa.defect2 (level - 1)) (sa.defect2 level))
    else s₁
  -- t[level].equ(-1., defect2[level]); t[level] += defect[level];
  let s₃ := s₂.updT level (-(s₂.defect2 level) + s₂.defect level)
  dlog (debug > 2) (.defectNorm cychar (c.l2_norm (s₃.t level))) s₃

/-- Base case of `level_step` (multigrid.templates.h:262-269):
`(*coarse)(level, solution[level], t[level]); return;` — the coarse solve
receives the local right-hand side `t[level]`, not `defect[level]`. -/
def g_coarse_branch (c : Collab V) (debug : Nat) (cychar : Char)
    (level : Nat) (s₄ : MGState V) : MGState V :=
  let s₅ := dlog (debug > 0) (.coarseLevel cychar level) s₄
  s₅.updSolution level (c.coarse level (s₅.solution level) (s₅.t level))

/-- `Multigrid::level_step` (multigrid.templates.h:219-348), the general
recursion used for the W- and F-cycles (and for V when dispatched here).
The `0` fallback of the inner match is unreachable for calls with
`minlevel ≤ level` (in C++ `level - 1` would wrap around at `0`). -/
def level_step (c : Collab V) (minlevel debug : Nat) :
    Nat → Cycle → MGState V → MGState V
  | level, cycle, s₀ =>
    let cychar := cycle.char
    let s₄ := g_entry_phase c minlevel debug cychar level s₀
    if level = minlevel then
      g_coarse_branch c debug cychar level s₄
    else
      match level with
      | 0 => s₄
      | l + 1 =>
        let sA := g_down_phase c debug cychar (l + 1) s₄
        -- level_step(level-1, cycle);
        let sB := level_step c minlevel debug l cycle sA
        -- if (level > minlevel+1) { if (cycle == w_cycle) level_step(level-1, cycle);
        --                           else if (cycle == f_cycle) level_step(level-1, v_cycle); }
        let sC :=
          if l + 1 > minlevel + 1 then
            if cycle = .w_cycle then level_step c minlevel debug l cycle sB
            else if cycle = .f_cycle then level_step c minlevel debug l .v_cycle sB
            else sB
          else sB
        g_up_phase c debug cychar (l + 1) sC

/-- `Multigrid::cycle` (multigrid.templates.h:352-376).  `reinit`-ing a
slot from the matching defect vector produces a zeroed vector of the same
shape, so the resize loop zeroes `solution`, `t` (and `defect2` when the
cycle type is not V) on `[minlevel, maxlevel]`. -/
def cycle (c : Collab V) (minlevel maxlevel debug : Nat) (cycle_type : Cycle)
    (s₀ : MGState V) : MGState V :=
  let s₁ : MGState V :=
    { s₀ with
      solution := fun l => if minlevel ≤ l ∧ l ≤ maxlevel then 0 else s₀.solution l
      t := fun l => if minlevel ≤ l ∧ l ≤ maxlevel then 0 else s₀.t l
      defect2 :=
        if cycle_type ≠ Cycle.v_cycle then
          fun l => if minlevel ≤ l ∧ l ≤ maxlevel then 0 else s₀.defect2 l
        else s₀.defect2 }
  if cycle_type = Cycle.v_cycle then level_v_step c minlevel debug maxlevel s₁
  else level_step c minlevel debug maxlevel cycle_type s₁

/-- `Multigrid::vcycle` (multigrid.templates.h:380-396), the legacy entry
point: resizes `solution` and `t` only and always performs a V-cycle
traversal, irrespective of the stored cycle type. -/
def vcycle (c : Collab V) (minlevel maxlevel debug : Nat) (s₀ : MGState V) :
    MGState V :=
  let s₁ : MGState V :=
    { s₀ with
      solution := fun l => if minlevel ≤ l ∧ l ≤ maxlevel then 0 else s₀.solution l
      t := fun l => if minlevel ≤ l ∧ l ≤ maxlevel then 0 else s₀.t l }
  level_v_step c minlevel debug maxlevel s₁

end Engine

/-- `ExcLowerRangeType<unsigned int>(a, b)`: the `InvalidRange`-style
condition raised by the `Assert` macros of `reinit`
(multigrid.templates.h:31-36), carrying the two compared values. -/
inductive MGError where
  | excLowerRange (a b : Nat)
deriving DecidableEq

/-- The configuration state touched by `Multigrid::reinit`: the active
level window and the addressable range of the defect store
(`MGLevelObject` bounds after `defect.resize(minlevel, maxlevel)`). -/
structure MGRangeState where
  minlevel : Nat
  maxlevel : Nat
  defect_lo : Nat
  defect_hi : Nat
deriving DecidableEq

/-- `Multigrid::reinit` (multigrid.templates.h:26-41).  `mat_minlevel` /
`mat_maxlevel` are `matrix->get_minlevel()` / `matrix->get_maxlevel()`,
the coarsest and finest levels supported by the bound operator collection.
The three `Assert`s are checked in source order; in a debug build a failed
`Assert` aborts the call before `minlevel`, `maxlevel` or the defect store
is mutated, which we render as returning the error with no new state. -/
def reinit (mat_minlevel mat_maxlevel : Nat) (_st : MGRangeState)
    (min_level max_level : Nat) : Except MGError MGRangeState :=
  if ¬ min_level ≥ mat_minlevel then
    Except.error (.excLowerRange min_level mat_minlevel)
  else if ¬ max_level ≤ mat_maxlevel then
    Except.error (.excLowerRange mat_maxlevel max_level)
  else if ¬ min_level ≤ max_level then
    Except.error (.excLowerRange max_level min_level)
  else
    Except.ok { minlevel := min_level, maxlevel := max_level,
                defect_lo := min_level, defect_hi := max_level }

/-- `Multigrid::set_maxlevel` (multigrid.templates.h:45-50). -/
def set_maxlevel (mat_minlevel mat_maxlevel : Nat) (st : MGRangeState)
    (l : Nat) : Except MGError MGRangeState :=
  reinit mat_minlevel mat_maxlevel st st.minlevel l

/-- `w`-bit unsigned subtraction: the value of the C++ expression `a - b`
on `unsigned int` operands `a, b < 2^w`. -/
def usub (w a b : Nat) : Nat := (a + 2 ^ w - b) % 2 ^ w

/-- `Multigrid::set_minlevel` (multigrid.templates.h:54-63).
`new_minlevel = relative ? (maxlevel - l) : l`, with the subtraction
performed in `w`-bit unsigned arithmetic, then `reinit(new_minlevel,
maxlevel)`. -/
def set_minlevel (w mat_minlevel mat_maxlevel : Nat) (st : MGRangeState)
    (l : Nat) (relative : Bool) : Except MGError MGRangeState :=
  let new_minlevel := if relative then usub w st.maxlevel l else l
  reinit mat_minlevel mat_maxlevel st new_minlevel st.maxlevel

/-! ### Projection lemmas for the elementary state operations -/

section Lemmas

variable {V : Type}

@[simp] theorem updSolution_solution (s : MGState V) (i : Nat) (v : V) :
    (s.updSolution i v).solution = Function.update s.solution i v := rfl

@[simp] theorem updSolution_defect (s : MGState V) (i : Nat) (v : V) :
    (s.updSolution i v).defect = s.defect := rfl

@[simp] theorem updSolution_t (s : MGState V) (i : Nat) (v : V) :
    (s.updSolution i v).t = s.t := rfl

@[simp] theorem updSolution_defect2 (s : MGState V) (i : Nat) (v : V) :
    (s.updSolution i v).defect2 = s.defect2 := rfl

@[simp] theorem updSolution_log (s : MGState V) (i : Nat) (v : V) :
    (s.updSolution i v).log = s.log := rfl

@[simp] theorem updDefect_solution (s : MGState V) (i : Nat) (v : V) :
    (s.updDefect i v).solution = s.solution := rfl

@[simp] theorem updDefect_defect (s : MGState V) (i : Nat) (v : V) :
    (s.updDefect i v).defect = Function.update s.defect i v := rfl

@[simp] theorem updDefect_t (s : MGState V) (i : Nat) (v : V) :
    (s.updDefect i v).t = s.t := rfl

@[simp] theorem updDefect_defect2 (s : MGState V) (i : Nat) (v : V) :
    (s.updDefect i v).defect2 = s.defect2 := rfl

@[simp] theorem updDefect_log (s : MGState V) (i : Nat) (v : V) :
    (s.updDefect i v).log = s.log := rfl

@[simp] theorem updT_solution (s : MGState V) (i : Nat) (v : V) :
    (s.updT i v).solution = s.solution := rfl

@[simp] theorem updT_defect (s : MGState V) (i : Nat) (v : V) :
    (s.updT i v).defect = s.defect := rfl

@[simp] theorem updT_t (s : MGState V) (i : Nat) (v : V) :
    (s.updT i v).t = Function.update s.t i v := rfl

@[simp] theorem updT_defect2 (s : MGState V) (i : Nat) (v : V) :
    (s.updT i v).defect2 = s.defect2 := rfl

@[simp] theorem updT_log (s : MGState V) (i : Nat) (v : V) :
    (s.updT i v).log = s.log := rfl

@[simp] theorem updDefect2_solution (s : MGState V) (i : Nat) (v : V) :
    (s.updDefect2 i v).solution = s.solution := rfl

@[simp] theorem updDefect2_defect (s : MGState V) (i : Nat) (v : V) :
    (s.updDefect2 i v).defect = s.defect := rfl

@[simp] theorem updDefect2_t (s : MGState V) (i : Nat) (v : V) :
    (s.updDefect2 i v).t = s.t := rfl

@[simp] theorem updDefect2_defect2 (s : MGState V) (i : Nat) (v : V) :
    (s.updDefect2 i v).defect2 = Function.update s.defect2 i v := rfl

@[simp] theorem updDefect2_log (s : MGState V) (i : Nat) (v : V) :
    (s.updDefect2 i v).log = s.log := rfl

@[simp] theorem dlog_solution (b : Bool) (e : MGEvent) (s : MGState V) :
    (dlog b e s).solution = s.solution := by
  unfold dlog; split <;> rfl

@[simp] theorem dlog_defect (b : Bool) (e : MGEvent) (s : MGState V) :
    (dlog b e s).defect = s.defect := by
  unfold dlog; split <;> rfl

@[simp] theorem dlog_t (b : Bool) (e : MGEvent) (s : MGState V) :
    (dlog b e s).t = s.t := by
  unfold dlog; split <;> rfl

@[simp] theorem dlog_defect2 (b : Bool) (e : MGEvent) (s : MGState V) :
    (dlog b e s).defect2 = s.defect2 := by
  unfold dlog; split <;> rfl

@[simp] theorem dlog_false (e : MGEvent) (s : MGState V) :
    dlog false e s = s := rfl

@[simp] theorem dlog_true_log (e : MGEvent) (s : MGState V) :
    (dlog true e s).log = s.log ++ [e] := rfl

end Lemmas

/-! ### Frame lemmas: which stores each routine can write -/

section Frame

variable {V : Type} [AddCommGroup V]

omit [AddCommGroup V] in
@[simp] theorem v_entry_phase_solution (c : Collab V) (debug level : Nat)
    (s : MGState V) : (v_entry_phase c debug level s).solution = s.solution := by
  unfold v_entry_phase; simp

omit [AddCommGroup V] in
@[simp] theorem v_entry_phase_defect (c : Collab V) (debug level : Nat)
    (s : MGState V) : (v_entry_phase c debug level s).defect = s.defect := by
  unfold v_entry_phase; simp

omit [AddCommGroup V] in
@[simp] theorem v_entry_phase_t (c : Collab V) (debug level : Nat)
    (s : MGState V) : (v_entry_phase c debug level s).t = s.t := by
  unfold v_entry_phase; simp

omit [AddCommGroup V] in
@[simp] theorem v_entry_phase_defect2 (c : Collab V) (debug level : Nat)
    (s : MGState V) : (v_entry_phase c debug level s).defect2 = s.defect2 := by
  unfold v_entry_phase; simp

omit [AddCommGroup V] in
@[simp] theorem v_coarse_branch_solution (c : Collab V) (debug level : Nat)
    (s : MGState V) : (v_coarse_branch c debug level s).solution =
      Function.update s.solution level
        (c.coarse level (s.solution level) (s.defect level)) := by
  unfold v_coarse_branch; simp

omit [AddCommGroup V] in
@[simp] theorem v_coarse_branch_defect (c : Collab V) (debug level : Nat)
    (s : MGState V) : (v_coarse_branch c debug level s).defect = s.defect := by
  unfold v_coarse_branch; simp

omit [AddCommGroup V] in
@[simp] theorem v_coarse_branch_t (c : Collab V) (debug level : Nat)
    (s : MGState V) : (v_coarse_branch c debug level s).t = s.t := by
  unfold v_coarse_branch; simp

omit [AddCommGroup V] in
@[simp] theorem v_coarse_branch_defect2 (c : Collab V) (debug level : Nat)
    (s : MGState V) : (v_coarse_branch c debug level s).defect2 = s.defect2 := by
  unfold v_coarse_branch; simp

@[simp] theorem g_entry_phase_solution (c : Collab V) (minlevel debug : Nat)
    (cychar : Char) (level : Nat) (s : MGState V) :
    (g_entry_phase c minlevel debug cychar level s).solution = s.solution := by
  unfold g_entry_phase; split <;> simp

@[simp] theorem g_entry_phase_defect (c : Collab V) (minlevel debug : Nat)
    (cychar : Char) (level : Nat) (s : MGState V) :
    (g_entry_phase c minlevel debug cychar level s).defect = s.defect := by
  unfold g_entry_phase; split <;> simp

theorem g_entry_phase_defect2_ne (c : Collab V) (minlevel debug : Nat)
    (cychar : Char) (level : Nat) (s : MGState V) (j : Nat)
    (hj : j ≠ level - 1) :
    (g_entry_phase c minlevel debug cychar level s).defect2 j = s.defect2 j := by
  unfold g_entry_phase; split <;> simp [Function.update_noteq hj]

/-- At level `0` the guard `level > minlevel` of the entry block is false,
so `defect2` is untouched. -/
@[simp] theorem g_entry_phase_defect2_zero (c : Collab V) (minlevel debug : Nat)
    (cychar : Char) (s : MGState V) :
    (g_entry_phase c minlevel debug cychar 0 s).defect2 = s.defect2 := by
  unfold g_entry_phase; simp

omit [AddCommGroup V] in
@[simp] theorem g_coarse_branch_defect (c : Collab V) (debug : Nat)
    (cychar : Char) (level : Nat) (s : MGState V) :
    (g_coarse_branch c debug cychar level s).defect = s.defect := by
  unfold g_coarse_branch; simp

omit [AddCommGroup V] in
@[simp] theorem g_coarse_branch_t (c : Collab V) (debug : Nat)
    (cychar : Char) (level : Nat) (s : MGState V) :
    (g_coarse_branch c debug cychar level s).t = s.t := by
  unfold g_coarse_branch; simp

omit [AddCommGroup V] in
@[simp] theorem g_coarse_branch_defect2 (c : Collab V) (debug : Nat)
    (cychar : Char) (level : Nat) (s : MGState V) :
    (g_coarse_branch c debug cychar level s).defect2 = s.defect2 := by
  unfold g_coarse_branch; simp

omit [AddCommGroup V] in
@[simp] theorem g_coarse_branch_solution (c : Collab V) (debug : Nat)
    (cychar : Char) (level : Nat) (s : MGState V) :
    (g_coarse_branch c debug cychar level s).solution =
      Function.update s.solution level
        (c.coarse level (s.solution level) (s.t level)) := by
  unfold g_coarse_branch; simp

/-- The fine-to-coarse phase of `level_step` never writes the defect store. -/
theorem g_down_phase_defect (c : Collab V) (debug : Nat) (cychar : Char)
    (level : Nat) (s : MGState V) :
    (g_down_phase c debug cychar level s).defect = s.defect := by
  unfold g_down_phase
  cases c.edge_out <;> cases c.edge_down <;> simp

/-- The coarse-to-fine phase of `level_step` never writes the defect store. -/
theorem g_up_phase_defect (c : Collab V) (debug : Nat) (cychar : Char)
    (level : Nat) (s : MGState V) :
    (g_up_phase c debug cychar level s).defect = s.defect := by
  unfold g_up_phase
  cases c.edge_in <;> cases c.edge_up <;> simp

/-- The coarse-to-fine phase of `level_step` never writes `defect2`. -/
theorem g_up_phase_defect2 (c : Collab V) (debug : Nat) (cychar : Char)
    (level : Nat) (s : MGState V) :
    (g_up_phase c debug cychar level s).defect2 = s.defect2 := by
  unfold g_up_phase
  cases c.edge_in <;> cases c.edge_up <;> simp

/-- The fine-to-coarse phase of `level_step` writes `defect2` only at
`level - 1`. -/
theorem g_down_phase_defect2_ne (c : Collab V) (debug : Nat) (cychar : Char)
    (level : Nat) (s : MGState V) (j : Nat) (hj : j ≠ level - 1) :
    (g_down_phase c debug cychar level s).defect2 j = s.defect2 j := by
  unfold g_down_phase
  cases c.edge_out <;> cases c.edge_down <;>
    simp [Function.update_noteq hj]

/-- The coarse-to-fine phase of `level_step` writes `solution` only at
`level`. -/
theorem g_up_phase_solution_ne (c : Collab V) (debug : Nat) (cychar : Char)
    (level : Nat) (s : MGState V) (j : Nat) (hj : j ≠ level) :
    (g_up_phase c debug cychar level s).solution j = s.solution j := by
  unfold g_up_phase
  cases c.edge_in <;> cases c.edge_up <;>
    simp [Function.update_noteq hj]

/-- `level_step` never writes the defect store: the general (W/F)
recursion keeps all its fine-to-coarse bookkeeping in `defect2`. -/
theorem level_step_defect (c : Collab V) (minlevel debug : Nat) :
    ∀ (level : Nat) (cy : Cycle) (s : MGState V),
      (level_step c minlevel debug level cy s).defect = s.defect := by
  intro level
  induction level with
  | zero =>
    intro cy s
    simp only [level_step]
    split <;> simp
  | succ l ih =>
    intro cy s
    simp only [level_step]
    split
    · simp
    · rw [g_up_phase_defect]
      split
      · split
        · rw [ih, ih, g_down_phase_defect]; simp
        · split
          · rw [ih, ih, g_down_phase_defect]; simp
          · rw [ih, g_down_phase_defect]; simp
      · rw [ih, g_down_phase_defect]; simp

/-- `level_step` at `level` writes `defect2` only at indices `< level`:
entries at `level` and above are untouched. -/
theorem level_step_defect2_high (c : Collab V) (minlevel debug : Nat) :
    ∀ (level : Nat) (cy : Cycle) (s : MGState V) (j : Nat), level ≤ j →
      (level_step c minlevel debug level cy s).defect2 j = s.defect2 j := by
  intro level
  induction level with
  | zero =>
    intro cy s j _
    simp only [level_step]
    split <;> simp
  | succ l ih =>
    intro cy s j hj
    have hj1 : j ≠ l + 1 - 1 := by omega
    have hj2 : l ≤ j := by omega
    simp only [level_step]
    split
    · simp [g_entry_phase_defect2_ne _ _ _ _ _ _ _ hj1]
    · rw [g_up_phase_defect2]
      split
      · split
        · rw [ih _ _ _ hj2, ih _ _ _ hj2,
            g_down_phase_defect2_ne _ _ _ _ _ _ hj1,
            g_entry_phase_defect2_ne _ _ _ _ _ _ _ hj1]
        · split
          · rw [ih _ _ _ hj2, ih _ _ _ hj2,
              g_down_phase_defect2_ne _ _ _ _ _ _ hj1,
              g_entry_phase_defect2_ne _ _ _ _ _ _ _ hj1]
          · rw [ih _ _ _ hj2, g_down_phase_defect2_ne _ _ _ _ _ _ hj1,
              g_entry_phase_defect2_ne _ _ _ _ _ _ _ hj1]
      · rw [ih _ _ _ hj2, g_down_phase_defect2_ne _ _ _ _ _ _ hj1,
          g_entry_phase_defect2_ne _ _ _ _ _ _ _ hj1]

end Frame

/-! ### The four vector stores do not depend on the debug verbosity -/

section Debug

variable {V : Type} [AddCommGroup V]

/-- Two engine states with identical vector stores (their `deallog`
streams may differ). -/
def EqStores (s₁ s₂ : MGState V) : Prop :=
  s₁.solution = s₂.solution ∧ s₁.defect = s₂.defect ∧
    s₁.t = s₂.t ∧ s₁.defect2 = s₂.defect2

omit [AddCommGroup V] in
theorem eqStores_refl (s : MGState V) : EqStores s s :=
  ⟨rfl, rfl, rfl, rfl⟩

omit [AddCommGroup V] in
theorem eqStores_dlog {s₁ s₂ : MGState V} (h : EqStores s₁ s₂)
    (b₁ b₂ : Bool) (e₁ e₂ : MGEvent) :
    EqStores (dlog b₁ e₁ s₁) (dlog b₂ e₂ s₂) := by
  obtain ⟨h1, h2, h3, h4⟩ := h
  exact ⟨by simp [h1], by simp [h2], by simp [h3], by simp [h4]⟩

omit [AddCommGroup V] in
theorem v_entry_phase_eqStores (c : Collab V) (d₁ d₂ level : Nat)
    {s₁ s₂ : MGState V} (h : EqStores s₁ s₂) :
    EqStores (v_entry_phase c d₁ level s₁) (v_entry_phase c d₂ level s₂) := by
  obtain ⟨h1, h2, h3, h4⟩ := h
  exact ⟨by simp [h1], by simp [h2], by simp [h3], by simp [h4]⟩

omit [AddCommGroup V] in
theorem v_coarse_branch_eqStores (c : Collab V) (d₁ d₂ level : Nat)
    {s₁ s₂ : MGState V} (h : EqStores s₁ s₂) :
    EqStores (v_coarse_branch c d₁ level s₁) (v_coarse_branch c d₂ level s₂) := by
  obtain ⟨h1, h2, h3, h4⟩ := h
  exact ⟨by simp [h1, h2], by simp [h2], by simp [h3], by simp [h4]⟩

theorem v_down_phase_eqStores (c : Collab V) (d₁ d₂ level : Nat)
    {s₁ s₂ : MGState V} (h : EqStores s₁ s₂) :
    EqStores (v_down_phase c d₁ level s₁) (v_down_phase c d₂ level s₂) := by
  obtain ⟨h1, h2, h3, h4⟩ := h
  unfold v_down_phase
  cases c.edge_out <;> cases c.edge_down <;>
    exact ⟨by simp [h1, h2, h3], by simp [h1, h2, h3],
           by simp [h1, h2, h3], by simp [h4]⟩

theorem v_up_phase_eqStores (c : Collab V) (d₁ d₂ level : Nat)
    {s₁ s₂ : MGState V} (h : EqStores s₁ s₂) :
    EqStores (v_up_phase c d₁ level s₁) (v_up_phase c d₂ level s₂) := by
  obtain ⟨h1, h2, h3, h4⟩ := h
  unfold v_up_phase
  cases c.edge_in <;> cases c.edge_up <;>
    exact ⟨by simp [h1, h2, h3], by simp [h1, h2, h3],
           by simp [h1, h2, h3], by simp [h4]⟩

theorem g_entry_phase_eqStores (c : Collab V) (minlevel d₁ d₂ : Nat)
    (cychar : Char) (level : Nat) {s₁ s₂ : MGState V} (h : EqStores s₁ s₂) :
    EqStores (g_entry_phase c minlevel d₁ cychar level s₁)
      (g_entry_phase c minlevel d₂ cychar level s₂) := by
  obtain ⟨h1, h2, h3, h4⟩ := h
  unfold g_entry_phase
  split <;>
    exact ⟨by simp [h1], by simp [h2], by simp [h2, h3, h4], by simp [h4]⟩

omit [AddCommGroup V] in
theorem g_coarse_branch_eqStores (c : Collab V) (d₁ d₂ : Nat)
    (cychar : Char) (level : Nat) {s₁ s₂ : MGState V} (h : EqStores s₁ s₂) :
    EqStores (g_coarse_branch c d₁ cychar level s₁)
      (g_coarse_branch c d₂ cychar level s₂) := by
  obtain ⟨h1, h2, h3, h4⟩ := h
  exact ⟨by simp [h1, h3], by simp [h2], by simp [h3], by simp [h4]⟩

theorem g_down_phase_eqStores (c : Collab V) (d₁ d₂ : Nat) (cychar : Char)
    (level : Nat) {s₁ s₂ : MGState V} (h : EqStores s₁ s₂) :
    EqStores (g_down_phase c d₁ cychar level s₁)
      (g_down_phase c d₂ cychar level s₂) := by
  obtain ⟨h1, h2, h3, h4⟩ := h
  unfold g_down_phase
  cases c.edge_out <;> cases c.edge_down <;>
    exact ⟨by simp [h1, h3], by simp [h2], by simp [h1, h3],
           by simp [h1, h3, h4]⟩

theorem g_up_phase_eqStores (c : Collab V) (d₁ d₂ : Nat) (cychar : Char)
    (level : Nat) {s₁ s₂ : MGState V} (h : EqStores s₁ s₂) :
    EqStores (g_up_phase c d₁ cychar level s₁)
      (g_up_phase c d₂ cychar level s₂) := by
  obtain ⟨h1, h2, h3, h4⟩ := h
  unfold g_up_phase
  cases c.edge_in <;> cases c.edge_up <;>
    exact ⟨by simp [h1, h2, h3, h4], by simp [h2],
           by simp [h1, h2, h3, h4], by simp [h4]⟩

/-- The vector stores produced by `level_v_step` do not depend on the
debug verbosity (and never read the `deallog` stream). -/
theorem level_v_step_eqStores (c : Collab V) (minlevel d₁ d₂ : Nat) :
    ∀ (level : Nat) {s₁ s₂ : MGState V}, EqStores s₁ s₂ →
      EqStores (level_v_step c minlevel d₁ level s₁)
        (level_v_step c minlevel d₂ level s₂) := by
  intro level
  induction level with
  | zero =>
    intro s₁ s₂ h
    simp only [level_v_step]
    split
    · exact v_coarse_branch_eqStores c d₁ d₂ 0
        (v_entry_phase_eqStores c d₁ d₂ 0 h)
    · exact v_entry_phase_eqStores c d₁ d₂ 0 h
  | succ l ih =>
    intro s₁ s₂ h
    simp only [level_v_step]
    split
    · exact v_coarse_branch_eqStores c d₁ d₂ (l + 1)
        (v_entry_phase_eqStores c d₁ d₂ (l + 1) h)
    · exact v_up_phase_eqStores c d₁ d₂ (l + 1)
        (ih (v_down_phase_eqStores c d₁ d₂ (l + 1)
          (v_entry_phase_eqStores c d₁ d₂ (l + 1) h)))

/-- The vector stores produced by `level_step` do not depend on the
debug verbosity (and never read the `deallog` stream). -/
theorem level_step_eqStores (c : Collab V) (minlevel d₁ d₂ : Nat) :
    ∀ (level : Nat) (cy : Cycle) {s₁ s₂ : MGState V}, EqStores s₁ s₂ →
      EqStores (level_step c minlevel d₁ level cy s₁)
        (level_step c minlevel d₂ level cy s₂) := by
  intro level
  induction level with
  | zero =>
    intro cy s₁ s₂ h
    simp only [level_step]
    split
    · exact g_coarse_branch_eqStores c d₁ d₂ cy.char 0
        (g_entry_phase_eqStores c minlevel d₁ d₂ cy.char 0 h)
    · exact g_entry_phase_eqStores c minlevel d₁ d₂ cy.char 0 h
  | succ l ih =>
    intro cy s₁ s₂ h
    simp only [level_step]
    split
    · exact g_coarse_branch_eqStores c d₁ d₂ cy.char (l + 1)
        (g_entry_phase_eqStores c minlevel d₁ d₂ cy.char (l + 1) h)
    · have hrec := ih cy
        (g_down_phase_eqStores c d₁ d₂ cy.char (l + 1)
          (g_entry_phase_eqStores c minlevel d₁ d₂ cy.char (l + 1) h))
      apply g_up_phase_eqStores
      split
      · split
        · exact ih _ hrec
        · split
          · exact ih _ hrec
          · exact hrec
      · exact hrec

end Debug

/-! ### Zero-defect idempotence -/

section Zero

variable {V : Type} [AddCommGroup V]

/-- The collaborator hypotheses of the zero-defect idempotence property:
every operator is linear enough to map zero input to zero output, the
smoothers and the coarse solver map a zero residual (and zero current
solution) to a zero correction, and the additive transfer contributes
nothing when accumulator and input are both zero. -/
structure MapsZero (c : Collab V) : Prop where
  matrix0 : ∀ l, c.matrix_vmult l 0 = 0
  pre0 : ∀ l, c.pre_smooth l 0 0 = 0
  post0 : ∀ l, c.post_smooth l 0 0 = 0
  restrict0 : ∀ l, c.restrict_and_add l 0 0 = 0
  prolongate0 : ∀ l, c.prolongate l 0 = 0
  coarse0 : ∀ l, c.coarse l 0 0 = 0
  edge_out0 : ∀ f, c.edge_out = some f → ∀ l, f l 0 = 0
  edge_in0 : ∀ f, c.edge_in = some f → ∀ l, f l 0 = 0
  edge_down0 : ∀ f, c.edge_down = some f → ∀ l, f l 0 = 0
  edge_up0 : ∀ f, c.edge_up = some f → ∀ l, f l 0 = 0

/-- Invariant for the V-cycle recursion: the defect store is zero
everywhere and `solution` / `t` are zero on the level window. -/
def InvV (ml mx : Nat) (s : MGState V) : Prop :=
  (∀ l, s.defect l = 0) ∧
    ∀ l, ml ≤ l → l ≤ mx → s.solution l = 0 ∧ s.t l = 0

/-- Invariant for the general recursion: additionally `defect2` is zero on
the level window. -/
def InvW (ml mx : Nat) (s : MGState V) : Prop :=
  (∀ l, s.defect l = 0) ∧
    ∀ l, ml ≤ l → l ≤ mx → s.solution l = 0 ∧ s.t l = 0 ∧ s.defect2 l = 0

theorem v_entry_phase_invV {c : Collab V} (debug level ml mx : Nat)
    {s : MGState V} (h : InvV ml mx s) :
    InvV ml mx (v_entry_phase c debug level s) := by
  obtain ⟨hd, hr⟩ := h
  exact ⟨fun l => by simp [hd l], fun l h1 h2 => by simpa using hr l h1 h2⟩

theorem v_coarse_branch_invV {c : Collab V} (hc : MapsZero c)
    (debug level ml mx : Nat) (hlev2 : level ≤ mx) (hlev1 : ml ≤ level)
    {s : MGState V} (h : InvV ml mx s) :
    InvV ml mx (v_coarse_branch c debug level s) := by
  obtain ⟨hd, hr⟩ := h
  have hsol : s.solution level = 0 := (hr level hlev1 hlev2).1
  refine ⟨fun l => by simp [hd l], fun l hl1 hl2 => ?_⟩
  have hsl := (hr l hl1 hl2).1
  have htl := (hr l hl1 hl2).2
  refine ⟨?_, by simpa using htl⟩
  simp only [v_coarse_branch_solution, Function.update_apply]
  split_ifs <;> simp_all [Function.update_apply, hc.coarse0]

theorem v_down_phase_invV {c : Collab V} (hc : MapsZero c)
    (debug level ml mx : Nat) (_h1 : ml ≤ level - 1) (h2 : level ≤ mx)
    (h3 : ml ≤ level) {s : MGState V} (h : InvV ml mx s) :
    InvV ml mx (v_down_phase c debug level s) := by
  obtain ⟨hd, hr⟩ := h
  have hsol : s.solution level = 0 := (hr level h3 h2).1
  have ht : s.t level = 0 := (hr level h3 h2).2
  unfold v_down_phase
  cases heo : c.edge_out with
  | none =>
    cases hed : c.edge_down with
    | none =>
      refine ⟨fun l => ?_, fun l hl1 hl2 => ?_⟩
      · simp only [updSolution_defect, updDefect_defect, updT_defect,
          dlog_defect, Function.update_apply]
        split_ifs <;>
          simp_all [Function.update_apply, hc.pre0, hc.matrix0, hc.restrict0]
      · have hsl := (hr l hl1 hl2).1
        have htl := (hr l hl1 hl2).2
        refine ⟨?_, ?_⟩ <;>
          · simp only [updSolution_solution, updDefect_solution,
              updT_solution, dlog_solution, updSolution_t, updDefect_t,
              updT_t, dlog_t, Function.update_apply]
            split_ifs <;> simp_all [Function.update_apply, hc.pre0, hc.matrix0]
    | some ed =>
      have hed0 := hc.edge_down0 ed hed
      refine ⟨fun l => ?_, fun l hl1 hl2 => ?_⟩
      · simp only [updSolution_defect, updDefect_defect, updT_defect,
          dlog_defect, Function.update_apply]
        split_ifs <;>
          simp_all [Function.update_apply, hc.pre0, hc.matrix0, hc.restrict0, hed0]
      · have hsl := (hr l hl1 hl2).1
        have htl := (hr l hl1 hl2).2
        refine ⟨?_, ?_⟩ <;>
          · simp only [updSolution_solution, updDefect_solution,
              updT_solution, dlog_solution, updSolution_t, updDefect_t,
              updT_t, dlog_t, Function.update_apply]
            split_ifs <;> simp_all [Function.update_apply, hc.pre0, hc.matrix0, hed0]
  | some eo =>
    have heo0 := hc.edge_out0 eo heo
    cases hed : c.edge_down with
    | none =>
      refine ⟨fun l => ?_, fun l hl1 hl2 => ?_⟩
      · simp only [updSolution_defect, updDefect_defect, updT_defect,
          dlog_defect, Function.update_apply]
        split_ifs <;>
          simp_all [Function.update_apply, hc.pre0, hc.matrix0, hc.restrict0, heo0]
      · have hsl := (hr l hl1 hl2).1
        have htl := (hr l hl1 hl2).2
        refine ⟨?_, ?_⟩ <;>
          · simp only [updSolution_solution, updDefect_solution,
              updT_solution, dlog_solution, updSolution_t, updDefect_t,
              updT_t, dlog_t, Function.update_apply]
            split_ifs <;> simp_all [Function.update_apply, hc.pre0, hc.matrix0, heo0]
    | some ed =>
      have hed0 := hc.edge_down0 ed hed
      refine ⟨fun l => ?_, fun l hl1 hl2 => ?_⟩
      · simp only [updSolution_defect, updDefect_defect, updT_defect,
          dlog_defect, Function.update_apply]
        split_ifs <;>
          simp_all [Function.update_apply, hc.pre0, hc.matrix0, hc.restrict0, heo0, hed0]
      · have hsl := (hr l hl1 hl2).1
        have htl := (hr l hl1 hl2).2
        refine ⟨?_, ?_⟩ <;>
          · simp only [updSolution_solution, updDefect_solution,
              updT_solution, dlog_solution, updSolution_t, updDefect_t,
              updT_t, dlog_t, Function.update_apply]
            split_ifs <;> simp_all [Function.update_apply, hc.pre0, hc.matrix0, heo0, hed0]

theorem v_up_phase_invV {c : Collab V} (hc : MapsZero c)
    (debug level ml mx : Nat) (h1 : ml ≤ level - 1) (h2 : level ≤ mx)
    (h3 : ml ≤ level) {s : MGState V} (h : InvV ml mx s) :
    InvV ml mx (v_up_phase c debug level s) := by
  obtain ⟨hd, hr⟩ := h
  have hlm1 : level - 1 ≤ mx := le_trans (Nat.sub_le level 1) h2
  have hsol : s.solution level = 0 := (hr level h3 h2).1
  have hsol1 : s.solution (level - 1) = 0 := (hr (level - 1) h1 hlm1).1
  unfold v_up_phase
  cases hei : c.edge_in with
  | none =>
    cases heu : c.edge_up with
    | none =>
      refine ⟨fun l => by simp [hd l], fun l hl1 hl2 => ?_⟩
      have hsl := (hr l hl1 hl2).1
      have htl := (hr l hl1 hl2).2
      refine ⟨?_, ?_⟩ <;>
        · simp only [updSolution_solution, updDefect_solution,
            updT_solution, dlog_solution, updSolution_t, updDefect_t,
            updT_t, dlog_t, Function.update_apply]
          split_ifs <;> simp_all [Function.update_apply, hc.prolongate0, hc.post0]
    | some eu =>
      have heu0 := hc.edge_up0 eu heu
      refine ⟨fun l => ?_, fun l hl1 hl2 => ?_⟩
      · simp only [updSolution_defect, updDefect_defect, updT_defect,
          dlog_defect, Function.update_apply]
        split_ifs <;> simp_all [Function.update_apply, hc.prolongate0, heu0]
      · have hsl := (hr l hl1 hl2).1
        have htl := (hr l hl1 hl2).2
        refine ⟨?_, ?_⟩ <;>
          · simp only [updSolution_solution, updDefect_solution,
              updT_solution, dlog_solution, updSolution_t, updDefect_t,
              updT_t, dlog_t, Function.update_apply]
            split_ifs <;> simp_all [Function.update_apply, hc.prolongate0, hc.post0, heu0]
  | some ei =>
    have hei0 := hc.edge_in0 ei hei
    cases heu : c.edge_up with
    | none =>
      refine ⟨fun l => ?_, fun l hl1 hl2 => ?_⟩
      · simp only [updSolution_defect, updDefect_defect, updT_defect,
          dlog_defect, Function.update_apply]
        split_ifs <;> simp_all [Function.update_apply, hc.prolongate0, hei0]
      · have hsl := (hr l hl1 hl2).1
        have htl := (hr l hl1 hl2).2
        refine ⟨?_, ?_⟩ <;>
          · simp only [updSolution_solution, updDefect_solution,
              updT_solution, dlog_solution, updSolution_t, updDefect_t,
              updT_t, dlog_t, Function.update_apply]
            split_ifs <;> simp_all [Function.update_apply, hc.prolongate0, hc.post0, hei0]
    | some eu =>
      have heu0 := hc.edge_up0 eu heu
      refine ⟨fun l => ?_, fun l hl1 hl2 => ?_⟩
      · simp only [updSolution_defect, updDefect_defect, updT_defect,
          dlog_defect, Function.update_apply]
        split_ifs <;> simp_all [Function.update_apply, hc.prolongate0, hei0, heu0]
      · have hsl := (hr l hl1 hl2).1
        have htl := (hr l hl1 hl2).2
        refine ⟨?_, ?_⟩ <;>
          · simp only [updSolution_solution, updDefect_solution,
              updT_solution, dlog_solution, updSolution_t, updDefect_t,
              updT_t, dlog_t, Function.update_apply]
            split_ifs <;> simp_all [Function.update_apply, hc.prolongate0, hc.post0, hei0, heu0]

/-- Zero-defect idempotence of the V-cycle recursion: from an all-zero
state, `level_v_step` leaves everything at zero. -/
theorem level_v_step_invV {c : Collab V} (hc : MapsZero c)
    (minlevel debug mx : Nat) :
    ∀ (level : Nat), minlevel ≤ level → level ≤ mx →
      ∀ {s : MGState V}, InvV minlevel mx s →
        InvV minlevel mx (level_v_step c minlevel debug level s) := by
  intro level
  induction level with
  | zero =>
    intro h1 h2 s h
    simp only [level_v_step]
    split
    · exact v_coarse_branch_invV hc debug 0 minlevel mx h2 h1
        (v_entry_phase_invV debug 0 minlevel mx h)
    · exact v_entry_phase_invV debug 0 minlevel mx h
  | succ l ih =>
    intro h1 h2 s h
    simp only [level_v_step]
    split
    · exact v_coarse_branch_invV hc debug (l + 1) minlevel mx h2 h1
        (v_entry_phase_invV debug (l + 1) minlevel mx h)
    · rename_i hne
      have hml : minlevel ≤ l := by omega
      have hml2 : minlevel ≤ l + 1 - 1 := by omega
      exact v_up_phase_invV hc debug (l + 1) minlevel mx hml2 h2 h1
        (ih hml (by omega)
          (v_down_phase_invV hc debug (l + 1) minlevel mx hml2 h2 h1
            (v_entry_phase_invV debug (l + 1) minlevel mx h)))

theorem g_entry_phase_invW {c : Collab V} (hc : MapsZero c)
    (minlevel debug : Nat) (cychar : Char) (level ml mx : Nat)
    (h2 : level ≤ mx) (h3 : ml ≤ level) {s : MGState V} (h : InvW ml mx s) :
    InvW ml mx (g_entry_phase c minlevel debug cychar level s) := by
  obtain ⟨hd, hr⟩ := h
  have hd2 : s.defect2 level = 0 := (hr level h3 h2).2.2
  unfold g_entry_phase
  split
  · rename_i hgt
    have hne : ¬ level = level - 1 := by omega
    refine ⟨fun l => by simp [hd l], fun l hl1 hl2 => ?_⟩
    have hsl := (hr l hl1 hl2).1
    have htl := (hr l hl1 hl2).2.1
    have hdl := (hr l hl1 hl2).2.2
    refine ⟨by simpa using hsl, ?_, ?_⟩
    · simp only [updSolution_t, updDefect2_t, updT_t, dlog_t,
        Function.update_apply]
      split_ifs with hl
      · simp [Function.update_apply, hne, hd2, hd]
      · exact htl
    · simp only [updSolution_defect2, updDefect2_defect2, updT_defect2,
        dlog_defect2, Function.update_apply]
      split_ifs with hl
      · simp [Function.update_apply, hne, hd2, hc.restrict0]
      · exact hdl
  · refine ⟨fun l => by simp [hd l], fun l hl1 hl2 => ?_⟩
    have hsl := (hr l hl1 hl2).1
    have htl := (hr l hl1 hl2).2.1
    have hdl := (hr l hl1 hl2).2.2
    refine ⟨by simpa using hsl, ?_, by simpa using hdl⟩
    simp only [updSolution_t, updDefect2_t, updT_t, dlog_t,
      Function.update_apply]
    split_ifs <;> simp_all

theorem g_coarse_branch_invW {c : Collab V} (hc : MapsZero c)
    (debug : Nat) (cychar : Char) (level ml mx : Nat)
    (h2 : level ≤ mx) (h3 : ml ≤ level) {s : MGState V} (h : InvW ml mx s) :
    InvW ml mx (g_coarse_branch c debug cychar level s) := by
  obtain ⟨hd, hr⟩ := h
  have hsol : s.solution level = 0 := (hr level h3 h2).1
  have ht : s.t level = 0 := (hr level h3 h2).2.1
  refine ⟨fun l => by simp [hd l], fun l hl1 hl2 => ?_⟩
  have hsl := (hr l hl1 hl2).1
  have htl := (hr l hl1 hl2).2.1
  have hdl := (hr l hl1 hl2).2.2
  refine ⟨?_, by simpa using htl, by simpa using hdl⟩
  simp only [g_coarse_branch_solution, Function.update_apply]
  split_ifs <;> simp_all [hc.coarse0]

theorem g_down_phase_invW {c : Collab V} (hc : MapsZero c)
    (debug : Nat) (cychar : Char) (level ml mx : Nat)
    (h1 : ml ≤ level - 1) (h2 : level ≤ mx) (h3 : ml ≤ level)
    {s : MGState V} (h : InvW ml mx s) :
    InvW ml mx (g_down_phase c debug cychar level s) := by
  obtain ⟨hd, hr⟩ := h
  have hlm1 : level - 1 ≤ mx := le_trans (Nat.sub_le level 1) h2
  have hsol : s.solution level = 0 := (hr level h3 h2).1
  have ht : s.t level = 0 := (hr level h3 h2).2.1
  have hd21 : s.defect2 (level - 1) = 0 := (hr (level - 1) h1 hlm1).2.2
  unfold g_down_phase
  cases heo : c.edge_out with
  | none =>
    cases hed : c.edge_down with
    | none =>
      refine ⟨fun l => by simp [hd l], fun l hl1 hl2 => ?_⟩
      have hsl := (hr l hl1 hl2).1
      have htl := (hr l hl1 hl2).2.1
      have hdl := (hr l hl1 hl2).2.2
      refine ⟨?_, ?_, ?_⟩ <;>
        · simp only [updSolution_solution, updDefect2_solution, updT_solution,
            dlog_solution, updSolution_t, updDefect2_t, updT_t, dlog_t,
            updSolution_defect2, updDefect2_defect2, updT_defect2,
            dlog_defect2, Function.update_apply]
          split_ifs <;>
            simp_all [Function.update_apply, hc.pre0, hc.matrix0, hc.restrict0]
    | some ed =>
      have hed0 := hc.edge_down0 ed hed
      refine ⟨fun l => by simp [hd l], fun l hl1 hl2 => ?_⟩
      have hsl := (hr l hl1 hl2).1
      have htl := (hr l hl1 hl2).2.1
      have hdl := (hr l hl1 hl2).2.2
      refine ⟨?_, ?_, ?_⟩ <;>
        · simp only [updSolution_solution, updDefect2_solution, updT_solution,
            dlog_solution, updSolution_t, updDefect2_t, updT_t, dlog_t,
            updSolution_defect2, updDefect2_defect2, updT_defect2,
            dlog_defect2, Function.update_apply]
          split_ifs <;>
            simp_all [Function.update_apply, hc.pre0, hc.matrix0,
              hc.restrict0, hed0]
  | some eo =>
    have heo0 := hc.edge_out0 eo heo
    cases hed : c.edge_down with
    | none =>
      refine ⟨fun l => by simp [hd l], fun l hl1 hl2 => ?_⟩
      have hsl := (hr l hl1 hl2).1
      have htl := (hr l hl1 hl2).2.1
      have hdl := (hr l hl1 hl2).2.2
      refine ⟨?_, ?_, ?_⟩ <;>
        · simp only [updSolution_solution, updDefect2_solution, updT_solution,
            dlog_solution, updSolution_t, updDefect2_t, updT_t, dlog_t,
            updSolution_defect2, updDefect2_defect2, updT_defect2,
            dlog_defect2, Function.update_apply]
          split_ifs <;>
            simp_all [Function.update_apply, hc.pre0, hc.matrix0,
              hc.restrict0, heo0]
    | some ed =>
      have hed0 := hc.edge_down0 ed hed
      refine ⟨fun l => by simp [hd l], fun l hl1 hl2 => ?_⟩
      have hsl := (hr l hl1 hl2).1
      have htl := (hr l hl1 hl2).2.1
      have hdl := (hr l hl1 hl2).2.2
      refine ⟨?_, ?_, ?_⟩ <;>
        · simp only [updSolution_solution, updDefect2_solution, updT_solution,
            dlog_solution, updSolution_t, updDefect2_t, updT_t, dlog_t,
            updSolution_defect2, updDefect2_defect2, updT_defect2,
            dlog_defect2, Function.update_apply]
          split_ifs <;>
            simp_all [Function.update_apply, hc.pre0, hc.matrix0,
              hc.restrict0, heo0, hed0]

theorem g_up_phase_invW {c : Collab V} (hc : MapsZero c)
    (debug : Nat) (cychar : Char) (level ml mx : Nat)
    (h1 : ml ≤ level - 1) (h2 : level ≤ mx) (h3 : ml ≤ level)
    {s : MGState V} (h : InvW ml mx s) :
    InvW ml mx (g_up_phase c debug cychar level s) := by
  obtain ⟨hd, hr⟩ := h
  have hlm1 : level - 1 ≤ mx := le_trans (Nat.sub_le level 1) h2
  have hsol : s.solution level = 0 := (hr level h3 h2).1
  have hsol1 : s.solution (level - 1) = 0 := (hr (level - 1) h1 hlm1).1
  have hd2 : s.defect2 level = 0 := (hr level h3 h2).2.2
  unfold g_up_phase
  cases hei : c.edge_in with
  | none =>
    cases heu : c.edge_up with
    | none =>
      refine ⟨fun l => by simp [hd l], fun l hl1 hl2 => ?_⟩
      have hsl := (hr l hl1 hl2).1
      have htl := (hr l hl1 hl2).2.1
      have hdl := (hr l hl1 hl2).2.2
      refine ⟨?_, ?_, by simpa using hdl⟩ <;>
        · simp only [updSolution_solution, updT_solution, dlog_solution,
            updSolution_t, updT_t, dlog_t, Function.update_apply]
          split_ifs <;>
            simp_all [Function.update_apply, hc.prolongate0, hc.post0]
    | some eu =>
      have heu0 := hc.edge_up0 eu heu
      refine ⟨fun l => by simp [hd l], fun l hl1 hl2 => ?_⟩
      have hsl := (hr l hl1 hl2).1
      have htl := (hr l hl1 hl2).2.1
      have hdl := (hr l hl1 hl2).2.2
      refine ⟨?_, ?_, by simpa using hdl⟩ <;>
        · simp only [updSolution_solution, updT_solution, dlog_solution,
            updSolution_t, updT_t, dlog_t, Function.update_apply]
          split_ifs <;>
            simp_all [Function.update_apply, hc.prolongate0, hc.post0, heu0]
  | some ei =>
    have hei0 := hc.edge_in0 ei hei
    cases heu : c.edge_up with
    | none =>
      refine ⟨fun l => by simp [hd l], fun l hl1 hl2 => ?_⟩
      have hsl := (hr l hl1 hl2).1
      have htl := (hr l hl1 hl2).2.1
      have hdl := (hr l hl1 hl2).2.2
      refine ⟨?_, ?_, by simpa using hdl⟩ <;>
        · simp only [updSolution_solution, updT_solution, dlog_solution,
            updSolution_t, updT_t, dlog_t, Function.update_apply]
          split_ifs <;>
            simp_all [Function.update_apply, hc.prolongate0, hc.post0, hei0]
    | some eu =>
      have heu0 := hc.edge_up0 eu heu
      refine ⟨fun l => by simp [hd l], fun l hl1 hl2 => ?_⟩
      have hsl := (hr l hl1 hl2).1
      have htl := (hr l hl1 hl2).2.1
      have hdl := (hr l hl1 hl2).2.2
      refine ⟨?_, ?_, by simpa using hdl⟩ <;>
        · simp only [updSolution_solution, updT_solution, dlog_solution,
            updSolution_t, updT_t, dlog_t, Function.update_apply]
          split_ifs <;>
            simp_all [Function.update_apply, hc.prolongate0, hc.post0,
              hei0, heu0]

/-- Zero-defect idempotence of the general recursion: from an all-zero
state, `level_step` leaves everything at zero, for every cycle type. -/
theorem level_step_invW {c : Collab V} (hc : MapsZero c)
    (minlevel debug mx : Nat) :
    ∀ (level : Nat), minlevel ≤ level → level ≤ mx →
      ∀ (cy : Cycle) {s : MGState V}, InvW minlevel mx s →
        InvW minlevel mx (level_step c minlevel debug level cy s) := by
  intro level
  induction level with
  | zero =>
    intro h1 h2 cy s h
    simp only [level_step]
    split
    · exact g_coarse_branch_invW hc debug cy.char 0 minlevel mx h2 h1
        (g_entry_phase_invW hc minlevel debug cy.char 0 minlevel mx h2 h1 h)
    · exact g_entry_phase_invW hc minlevel debug cy.char 0 minlevel mx h2 h1 h
  | succ l ih =>
    intro h1 h2 cy s h
    simp only [level_step]
    split
    · exact g_coarse_branch_invW hc debug cy.char (l + 1) minlevel mx h2 h1
        (g_entry_phase_invW hc minlevel debug cy.char (l + 1) minlevel mx h2 h1 h)
    · rename_i hne
      have hml : minlevel ≤ l := by omega
      have hml2 : minlevel ≤ l + 1 - 1 := by omega
      have hlx : l ≤ mx := by omega
      have hrec := ih hml hlx cy
        (g_down_phase_invW hc debug cy.char (l + 1) minlevel mx hml2 h2 h1
          (g_entry_phase_invW hc minlevel debug cy.char (l + 1) minlevel mx h2 h1 h))
      apply g_up_phase_invW hc debug cy.char (l + 1) minlevel mx hml2 h2 h1
      split
      · split
        · exact ih hml hlx _ hrec
        · split
          · exact ih hml hlx _ hrec
          · exact hrec
      · exact hrec

end Zero

/-! ### Diagnostic traces at verbosity 1: one `enter` event per visit and
one `coarse` event per coarse-solver invocation -/

section Trace

variable {V : Type} [AddCommGroup V]

/-- The `deallog` events emitted by `level_v_step` at `debug = 1`
(only the `entering level` and `Coarse level` messages are gated below
verbosity 2). -/
def vTrace (minlevel : Nat) : Nat → List MGEvent
  | 0 =>
    if 0 = minlevel then [.vEnterLevel 0, .vCoarseLevel 0]
    else [.vEnterLevel 0]
  | l + 1 =>
    if l + 1 = minlevel then [.vEnterLevel (l + 1), .vCoarseLevel (l + 1)]
    else .vEnterLevel (l + 1) :: vTrace minlevel l

/-- The `deallog` events emitted by `level_step` at `debug = 1`. -/
def gTrace (minlevel : Nat) : Nat → Cycle → List MGEvent
  | 0, cy =>
    if 0 = minlevel then [.enterLevel cy.char 0, .coarseLevel cy.char 0]
    else [.enterLevel cy.char 0]
  | l + 1, cy =>
    if l + 1 = minlevel then
      [.enterLevel cy.char (l + 1), .coarseLevel cy.char (l + 1)]
    else
      .enterLevel cy.char (l + 1) ::
        (gTrace minlevel l cy ++
          (if l + 1 > minlevel + 1 then
            (if cy = .w_cycle then gTrace minlevel l cy
             else if cy = .f_cycle then gTrace minlevel l .v_cycle
             else [])
           else []))

omit [AddCommGroup V] in
theorem v_entry_phase_log1 (c : Collab V) (level : Nat) (s : MGState V) :
    (v_entry_phase c 1 level s).log = s.log ++ [.vEnterLevel level] := rfl

omit [AddCommGroup V] in
theorem v_coarse_branch_log1 (c : Collab V) (level : Nat) (s : MGState V) :
    (v_coarse_branch c 1 level s).log = s.log ++ [.vCoarseLevel level] := rfl

theorem v_down_phase_log1 (c : Collab V) (level : Nat) (s : MGState V) :
    (v_down_phase c 1 level s).log = s.log := by
  unfold v_down_phase
  cases c.edge_out <;> cases c.edge_down <;> rfl

theorem v_up_phase_log1 (c : Collab V) (level : Nat) (s : MGState V) :
    (v_up_phase c 1 level s).log = s.log := by
  unfold v_up_phase
  cases c.edge_in <;> cases c.edge_up <;> rfl

theorem g_entry_phase_log1 (c : Collab V) (minlevel : Nat) (cychar : Char)
    (level : Nat) (s : MGState V) :
    (g_entry_phase c minlevel 1 cychar level s).log =
      s.log ++ [.enterLevel cychar level] := by
  unfold g_entry_phase
  split <;> rfl

omit [AddCommGroup V] in
theorem g_coarse_branch_log1 (c : Collab V) (cychar : Char)
    (level : Nat) (s : MGState V) :
    (g_coarse_branch c 1 cychar level s).log =
      s.log ++ [.coarseLevel cychar level] := rfl

theorem g_down_phase_log1 (c : Collab V) (cychar : Char) (level : Nat)
    (s : MGState V) :
    (g_down_phase c 1 cychar level s).log = s.log := by
  unfold g_down_phase
  cases c.edge_out <;> cases c.edge_down <;> rfl

theorem g_up_phase_log1 (c : Collab V) (cychar : Char) (level : Nat)
    (s : MGState V) :
    (g_up_phase c 1 cychar level s).log = s.log := by
  unfold g_up_phase
  cases c.edge_in <;> cases c.edge_up <;> rfl

/-- At verbosity 1 the `deallog` stream of `level_v_step` is exactly
`vTrace`: one `entering` event per level visit and one `Coarse level`
event per coarse-solver invocation. -/
theorem level_v_step_log1 (c : Collab V) (minlevel : Nat) :
    ∀ (level : Nat) (s : MGState V),
      (level_v_step c minlevel 1 level s).log = s.log ++ vTrace minlevel level := by
  intro level
  induction level with
  | zero =>
    intro s
    simp only [level_v_step, vTrace]
    split
    · rw [v_coarse_branch_log1, v_entry_phase_log1]
      simp
    · rw [v_entry_phase_log1]
  | succ l ih =>
    intro s
    simp only [level_v_step, vTrace]
    split
    · rw [v_coarse_branch_log1, v_entry_phase_log1]
      simp
    · rw [v_up_phase_log1, ih, v_down_phase_log1, v_entry_phase_log1]
      simp

/-- At verbosity 1 the `deallog` stream of `level_step` is exactly
`gTrace`: one `entering` event per level visit (carrying the cycle
character of that visit) and one `coarse level` event per coarse-solver
invocation. -/
theorem level_step_log1 (c : Collab V) (minlevel : Nat) :
    ∀ (level : Nat) (cy : Cycle) (s : MGState V),
      (level_step c minlevel 1 level cy s).log =
        s.log ++ gTrace minlevel level cy := by
  intro level
  induction level with
  | zero =>
    intro cy s
    simp only [level_step, gTrace]
    split
    · rw [g_coarse_branch_log1, g_entry_phase_log1]
      simp
    · rw [g_entry_phase_log1]
  | succ l ih =>
    intro cy s
    simp only [level_step, gTrace]
    split
    · rw [g_coarse_branch_log1, g_entry_phase_log1]
      simp
    · rw [g_up_phase_log1]
      split
      · split
        · rw [ih, ih, g_down_phase_log1, g_entry_phase_log1]
          rename_i hgt hw
          simp [hgt, hw]
        · split
          · rw [ih, ih, g_down_phase_log1, g_entry_phase_log1]
            rename_i hgt hnw hf
            simp [hgt, hnw, hf]
          · rw [ih, g_down_phase_log1, g_entry_phase_log1]
            rename_i hgt hnw hnf
            simp [hgt, hnw, hnf]
      · rw [ih, g_down_phase_log1, g_entry_phase_log1]
        rename_i hgt
        simp [hgt]

end Trace

/-! ### Base-case agreement of the two recursions, and the edge_in /
edge_up overwrite in `level_step` -/

section Agreement

variable {V : Type} [AddCommGroup V]

/-- At the base level the local right-hand side of `level_step` is
`-defect2[minlevel] + defect[minlevel]` (the `level > minlevel` block is
skipped). -/
theorem g_entry_phase_t_min (c : Collab V) (minlevel debug : Nat)
    (cychar : Char) (s : MGState V) :
    (g_entry_phase c minlevel debug cychar minlevel s).t minlevel =
      -(s.defect2 minlevel) + s.defect minlevel := by
  unfold g_entry_phase
  simp [Nat.lt_irrefl]

/-- `g_entry_phase` can only write `t`, `defect2` and the log. -/
theorem g_entry_phase_t_ne (c : Collab V) (minlevel debug : Nat)
    (cychar : Char) (level : Nat) (s : MGState V) (j : Nat) (hj : j ≠ level) :
    (g_entry_phase c minlevel debug cychar level s).t j = s.t j := by
  unfold g_entry_phase
  split <;> simp [Function.update_noteq hj]

/-- When both `edge_in` and `edge_up` are set, the final `t[level]` of the
coarse-to-fine phase of `level_step` carries only the `edge_up` transpose
application: `edge_up->Tvmult` at line 332 overwrites the value written by
`edge_in->Tvmult` at line 329, so the recombined residual is
`defect[level] - edge_upᵗ(solution[level-1]) - defect2[level]`, with no
`edge_in` contribution. -/
theorem g_up_phase_t_edges (c : Collab V) (debug : Nat) (cychar : Char)
    (l : Nat) (s : MGState V) (f g : Nat → V → V)
    (hin : c.edge_in = some f) (hup : c.edge_up = some g) :
    (g_up_phase c debug cychar (l + 1) s).t (l + 1) =
      -(g (l + 1) (s.solution l)) - s.defect2 (l + 1) + s.defect (l + 1) := by
  unfold g_up_phase
  rw [hin, hup]
  have hne : l ≠ l + 1 := by omega
  simp [Function.update_apply, Function.update_noteq hne]

/-- Agreement of `level_v_step` and `level_step(·, v_cycle)` on the base
case: when called at `level = minlevel` with `defect2[minlevel] = 0`
(which is how `cycle()` initializes `defect2`), both routines hand the
coarse solver the same right-hand side and produce identical solution
stores. -/
theorem base_level_agreement (c : Collab V) (minlevel debug : Nat)
    (s : MGState V) (h : s.defect2 minlevel = 0) :
    ∀ j, (level_v_step c minlevel debug minlevel s).solution j =
      (level_step c minlevel debug minlevel Cycle.v_cycle s).solution j := by
  intro j
  cases minlevel with
  | zero =>
    simp only [level_v_step, level_step, if_true]
    simp only [v_coarse_branch_solution, g_coarse_branch_solution,
      v_entry_phase_solution, v_entry_phase_defect, g_entry_phase_solution,
      g_entry_phase_t_min, h]
    simp
  | succ m =>
    simp only [level_v_step, level_step, if_true]
    simp only [v_coarse_branch_solution, g_coarse_branch_solution,
      v_entry_phase_solution, v_entry_phase_defect, g_entry_phase_solution,
      g_entry_phase_t_min, h]
    simp

/-- One-layer unfolding of `level_step` above the base level when both
`edge_in` and `edge_up` are set: the recombined residual handed to the
post-smoother is `defect[level] - edge_upᵗ(solution[level-1]) -
defect2[level]` — the `edge_in` application was overwritten. -/
theorem level_step_edges_t (c : Collab V) (minlevel debug : Nat) (l : Nat)
    (cy : Cycle) (s : MGState V) (f g : Nat → V → V) (hml : minlevel ≤ l)
    (hin : c.edge_in = some f) (hup : c.edge_up = some g) :
    (level_step c minlevel debug (l + 1) cy s).t (l + 1) =
      -(g (l + 1) ((level_step c minlevel debug (l + 1) cy s).solution l)) -
        s.defect2 (l + 1) + s.defect (l + 1) := by
  have hne : ¬ (l + 1 = minlevel) := by omega
  have hne2 : (l + 1 : Nat) ≠ l + 1 - 1 := by omega
  have hnel : l ≠ l + 1 := by omega
  simp only [level_step]
  rw [if_neg hne]
  rw [g_up_phase_t_edges c debug cy.char l _ f g hin hup]
  rw [g_up_phase_solution_ne c debug cy.char (l + 1) _ l hnel]
  split
  · split
    · rw [level_step_defect2_high c minlevel debug l _ _ (l + 1) (by omega),
        level_step_defect2_high c minlevel debug l _ _ (l + 1) (by omega),
        g_down_phase_defect2_ne c debug cy.char (l + 1) _ (l + 1) hne2,
        g_entry_phase_defect2_ne c minlevel debug cy.char (l + 1) _ (l + 1) hne2,
        level_step_defect, level_step_defect, g_down_phase_defect,
        g_entry_phase_defect]
    · split
      · rw [level_step_defect2_high c minlevel debug l _ _ (l + 1) (by omega),
          level_step_defect2_high c minlevel debug l _ _ (l + 1) (by omega),
          g_down_phase_defect2_ne c debug cy.char (l + 1) _ (l + 1) hne2,
          g_entry_phase_defect2_ne c minlevel debug cy.char (l + 1) _ (l + 1) hne2,
          level_step_defect, level_step_defect, g_down_phase_defect,
          g_entry_phase_defect]
      · rw [level_step_defect2_high c minlevel debug l _ _ (l + 1) (by omega),
          g_down_phase_defect2_ne c debug cy.char (l + 1) _ (l + 1) hne2,
          g_entry_phase_defect2_ne c minlevel debug cy.char (l + 1) _ (l + 1) hne2,
          level_step_defect, g_down_phase_defect, g_entry_phase_defect]
  · rw [level_step_defect2_high c minlevel debug l _ _ (l + 1) (by omega),
      g_down_phase_defect2_ne c debug cy.char (l + 1) _ (l + 1) hne2,
      g_entry_phase_defect2_ne c minlevel debug cy.char (l + 1) _ (l + 1) hne2,
      level_step_defect, g_down_phase_defect, g_entry_phase_defect]

end Agreement

/-! ### Concrete scenarios -/

/-- The end-to-end scalar scenario of the spec: level operators are the
scalar multipliers `A0 = 1`, `A1 = 2`; restriction and prolongation are
the identity; the smoothers are no-ops; the coarse solver applies
`A0⁻¹ = 1` (returns its right-hand side); no edge operators. -/
def scalarCollab : Collab ℤ where
  matrix_vmult := fun l v => if l = 0 then v else 2 * v
  pre_smooth := fun _ u _ => u
  post_smooth := fun _ u _ => u
  restrict_and_add := fun _ acc v => acc + v
  prolongate := fun _ v => v
  coarse := fun _ _ rhs => rhs
  l2_norm := fun v => (v.natAbs : ℚ)
  edge_out := none
  edge_in := none
  edge_down := none
  edge_up := none

/-- Initial state of the scalar scenario: `defect[1] = 4`, `defect[0] = 0`,
everything else zero. -/
def scalarState : MGState ℤ where
  solution := fun _ => 0
  defect := fun l => if l = 1 then 4 else 0
  t := fun _ => 0
  defect2 := fun _ => 0
  log := []

/-- Trivial collaborators over `ℤ` (identity smoothers, zero operators,
no edges); used to instantiate universally quantified theorems. -/
def trivCollab : Collab ℤ where
  matrix_vmult := fun _ _ => 0
  pre_smooth := fun _ u _ => u
  post_smooth := fun _ u _ => u
  restrict_and_add := fun _ acc _ => acc
  prolongate := fun _ _ => 0
  coarse := fun _ _ _ => 0
  l2_norm := fun _ => 0
  edge_out := none
  edge_in := none
  edge_down := none
  edge_up := none

/-- The all-zero state over `ℤ`. -/
def zeroState : MGState ℤ where
  solution := fun _ => 0
  defect := fun _ => 0
  t := fun _ => 0
  defect2 := fun _ => 0
  log := []

/-- Scenario with both transpose edge operators set (both the identity):
`A = 0`, the pre-smoother writes its right-hand side into the solution,
the post-smoother is a no-op, transfer is the identity, the coarse solver
returns its right-hand side, `defect[1] = 4`, `defect[0] = 3`. -/
def edgeCollab : Collab ℤ where
  matrix_vmult := fun _ _ => 0
  pre_smooth := fun _ _ rhs => rhs
  post_smooth := fun _ u _ => u
  restrict_and_add := fun _ acc v => acc + v
  prolongate := fun _ v => v
  coarse := fun _ _ rhs => rhs
  l2_norm := fun v => (v.natAbs : ℚ)
  edge_out := none
  edge_in := some (fun _ v => v)
  edge_down := none
  edge_up := some (fun _ v => v)

/-- Initial state of the edge scenario. -/
def edgeState : MGState ℤ where
  solution := fun _ => 0
  defect := fun l => if l = 1 then 4 else 3
  t := fun _ => 0
  defect2 := fun _ => 0
  log := []

/-- Unsigned wrap-around subtraction agrees with the mathematical
`(a - b) mod K` on integers. -/
theorem umod_int (K a b : Nat) (hK : 0 < K) (ha : a < K) (hb : b < K) :
    (((a + K - b) % K : ℕ) : ℤ) = ((a : ℤ) - b) % (K : ℤ) := by
  rcases le_or_lt b a with hle | hlt
  · have e : a + K - b = (a - b) + K := by omega
    rw [e, Nat.add_mod_right, Nat.mod_eq_of_lt (by omega)]
    have hid : ((a : ℤ) - b) % (K : ℤ) = (a : ℤ) - b :=
      Int.emod_eq_of_lt (by omega) (by omega)
    rw [hid]
    omega
  · have e : a + K - b < K := by omega
    rw [Nat.mod_eq_of_lt e]
    have e2 : ((a : ℤ) - b) % (K : ℤ) =
        ((a : ℤ) - b + (K : ℤ) * 1) % (K : ℤ) := by
      rw [Int.add_mul_emod_self_left]
    have hid : ((a : ℤ) - b + (K : ℤ) * 1) % (K : ℤ) =
        (a : ℤ) - b + (K : ℤ) * 1 :=
      Int.emod_eq_of_lt (by omega) (by omega)
    rw [e2, hid]
    omega

/-! ### The claims -/

/-- C1: in the two-level scalar scenario (`minlevel = 0`, `maxlevel = 1`,
`A0 = 1`, `A1 = 2`, identity restriction and prolongation, no-op
smoothers, no edge operators, zero initial solution, `defect[1] = 4`,
`defect[0] = 0`), `cycle()` with cycle type V terminates with
`solution[0] = 4` and `solution[1] = 4`. -/
theorem C1_end_to_end_scalar :
    (cycle scalarCollab 0 1 0 Cycle.v_cycle scalarState).solution 0 = 4 ∧
    (cycle scalarCollab 0 1 0 Cycle.v_cycle scalarState).solution 1 = 4 := by
  decide

/-- C2 (counterexample): with all four edge slots unset, `level_v_step`
and `level_step(·, v_cycle)` do NOT always produce identical solution
stores.  In the scalar scenario (all stores zero except `defect[1] = 4`,
`defect2 ≡ 0` as `cycle()` would initialize it), `level_v_step(1)` ends
with `solution[1] = 4` while `level_step(1, v_cycle)` ends with
`solution[1] = 0`: the V-routine restricts the residual
`defect[1] - A·solution[1]` into the defect store, while the general
routine restricts only `A·solution[1]` into `defect2`, so the coarse
solver sees right-hand sides differing by the restriction of
`defect[1]`. -/
theorem C2_counterexample :
    (level_v_step scalarCollab 0 0 1 scalarState).solution 1 ≠
      (level_step scalarCollab 0 0 1 Cycle.v_cycle scalarState).solution 1 := by
  decide

/-- C2 (amended): with all four edge slots unset — indeed for arbitrary
collaborators — the dedicated V-cycle routine and the general routine with
cycle type V produce identical final solution stores in the base case
`maxlevel = minlevel`, provided `defect2[minlevel] = 0` (which is how
`cycle()` initializes `defect2`); for `maxlevel > minlevel` the two
recursions differ in general (see the counterexample): `level_v_step`
restricts the residual into the defect store and post-smooths against
`defect[level]`, while `level_step` restricts the operator image into
`defect2` and post-smooths against a recombined local residual. -/
theorem C2_edge_free_equivalence_amended {V : Type} [AddCommGroup V]
    (c : Collab V) (minlevel debug : Nat) (s : MGState V)
    (h : s.defect2 minlevel = 0) :
    ∀ j, (level_v_step c minlevel debug minlevel s).solution j =
      (level_step c minlevel debug minlevel Cycle.v_cycle s).solution j :=
  base_level_agreement c minlevel debug s h

/-- Witness for C2 (amended) at a concrete instance. -/
theorem C2_edge_free_equivalence_amended_witness :
    scalarState.defect2 0 = 0 ∧
    (level_v_step scalarCollab 0 0 0 scalarState).solution 0 =
      (level_step scalarCollab 0 0 0 Cycle.v_cycle scalarState).solution 0 :=
  ⟨by decide,
   C2_edge_free_equivalence_amended scalarCollab 0 0 scalarState (by decide) 0⟩

/-- C3: for the three-level hierarchy `minlevel = 0`, `maxlevel = 2` (any
collaborators, any initial stores, empty log), one `cycle()` call with
cycle type W invokes the coarse solver exactly 2 times and one `cycle()`
call with cycle type V invokes it exactly 1 time.  Invocations are counted
through the engine's own diagnostics at verbosity 1: the `coarse level`
`deallog` event is emitted exactly once per coarse-solver call. -/
theorem C3_coarse_solve_counts {V : Type} [AddCommGroup V] (c : Collab V)
    (s : MGState V) :
    ((cycle c 0 2 1 Cycle.w_cycle { s with log := [] }).log.countP
        isCoarseEvent = 2) ∧
    ((cycle c 0 2 1 Cycle.v_cycle { s with log := [] }).log.countP
        isCoarseEvent = 1) := by
  constructor
  · have hne : ¬ (Cycle.w_cycle = Cycle.v_cycle) := by decide
    simp only [cycle, if_neg hne]
    rw [level_step_log1]
    show List.countP isCoarseEvent ([] ++ gTrace 0 2 Cycle.w_cycle) = 2
    decide
  · simp only [cycle, eq_self_iff_true, if_true]
    rw [level_v_step_log1]
    show List.countP isCoarseEvent ([] ++ vTrace 0 2) = 1
    decide

/-- C4: for the four-level hierarchy `minlevel = 0`, executing
`level_step(3, F)` produces exactly this visit trace (at verbosity 1, one
`entering` event per visit carrying the cycle type of that call, one
`coarse level` event per coarse solve): the first descent keeps type F all
the way down (`F3 F2 F1 F0`), the mandatory second descents at levels
`3` and `2` (both `> minlevel + 1`) are invoked with cycle type V
(`V1 V0` from level 2, then `V2 V1 V0` from level 3), never with F; no
second descent occurs at level `1 = minlevel + 1` or at the base (each `1`
and `0` visit appears exactly once per descent), and no W-typed call
appears. -/
theorem C4_f_cycle_second_descent_type {V : Type} [AddCommGroup V]
    (c : Collab V) (s : MGState V) :
    (level_step c 0 1 3 Cycle.f_cycle { s with log := [] }).log =
      [MGEvent.enterLevel 'F' 3, MGEvent.enterLevel 'F' 2,
       MGEvent.enterLevel 'F' 1, MGEvent.enterLevel 'F' 0,
       MGEvent.coarseLevel 'F' 0, MGEvent.enterLevel 'V' 1,
       MGEvent.enterLevel 'V' 0, MGEvent.coarseLevel 'V' 0,
       MGEvent.enterLevel 'V' 2, MGEvent.enterLevel 'V' 1,
       MGEvent.enterLevel 'V' 0, MGEvent.coarseLevel 'V' 0] := by
  rw [level_step_log1]
  show ([] : List MGEvent) ++ gTrace 0 3 Cycle.f_cycle = _
  decide

/-- C5: for every level range `minlevel ≤ maxlevel` and every cycle type,
if every `defect[level]` is zero and all collaborators map zero to zero
(`MapsZero`), then after `cycle()` every `solution[level]` in the window
is zero. -/
theorem C5_zero_defect_idempotence {V : Type} [AddCommGroup V]
    (c : Collab V) (minlevel maxlevel debug : Nat) (ct : Cycle)
    (s : MGState V) (hc : MapsZero c) (hrange : minlevel ≤ maxlevel)
    (hdef : ∀ l, s.defect l = 0) :
    ∀ l, minlevel ≤ l → l ≤ maxlevel →
      (cycle c minlevel maxlevel debug ct s).solution l = 0 := by
  intro l h1 h2
  by_cases hct : ct = Cycle.v_cycle
  · simp only [cycle, if_pos hct, if_neg (by simp [hct] : ¬ ct ≠ Cycle.v_cycle)]
    refine ((level_v_step_invV hc minlevel debug maxlevel maxlevel hrange
      le_rfl ?_).2 l h1 h2).1
    refine ⟨fun j => by simp [hdef j], fun j hj1 hj2 => ?_⟩
    constructor <;> simp [hj1, hj2]
  · simp only [cycle, if_neg hct, if_pos (by simp [hct] : ct ≠ Cycle.v_cycle)]
    refine ((level_step_invW hc minlevel debug maxlevel maxlevel hrange
      le_rfl ct ?_).2 l h1 h2).1
    refine ⟨fun j => by simp [hdef j], fun j hj1 hj2 => ?_⟩
    refine ⟨?_, ?_, ?_⟩ <;> simp [hj1, hj2]

/-- Witness for C5 at a concrete instance. -/
theorem C5_zero_defect_idempotence_witness :
    MapsZero trivCollab ∧ (0 : Nat) ≤ 1 ∧ (∀ l, zeroState.defect l = 0) ∧
    (cycle trivCollab 0 1 0 Cycle.w_cycle zeroState).solution 1 = 0 := by
  refine ⟨?_, Nat.zero_le 1, fun l => rfl, ?_⟩
  · constructor <;> first
      | intro l; rfl
      | intro f hf l; cases hf
  · exact C5_zero_defect_idempotence trivCollab 0 1 0 Cycle.w_cycle zeroState
      (by constructor <;> first
        | intro l; rfl
        | intro f hf l; cases hf)
      (Nat.zero_le 1) (fun l => rfl) 1 (Nat.zero_le 1) le_rfl

/-- C6 (counterexample): the defect store is NOT read-only under
`cycle()`: in the scalar scenario a V-cycle run rewrites `defect[0]` from
`0` to `4` (the restriction `restrict_and_add` of the level-1 residual is
accumulated into `defect[0]`, multigrid.templates.h:164). -/
theorem C6_counterexample :
    (cycle scalarCollab 0 1 0 Cycle.v_cycle scalarState).defect 0 ≠
      scalarState.defect 0 := by
  decide

/-- C6 (amended): for the cycle types that use the general recursion
(W and F — every type other than V), the defect store is read-only during
`cycle()`: all fine-to-coarse bookkeeping goes through `defect2` and the
final defect store equals the initial one.  The dedicated V-cycle routine,
in contrast, does write the defect store (restriction into
`defect[level-1]`, and the `edge_in` / `edge_up` corrections into
`defect[level]`), as the counterexample shows. -/
theorem C6_defect_readonly_amended {V : Type} [AddCommGroup V]
    (c : Collab V) (minlevel maxlevel debug : Nat) (ct : Cycle)
    (s : MGState V) (hct : ct ≠ Cycle.v_cycle) :
    (cycle c minlevel maxlevel debug ct s).defect = s.defect := by
  simp only [cycle, if_neg hct, if_pos hct]
  rw [level_step_defect]

/-- Witness for C6 (amended) at a concrete instance. -/
theorem C6_defect_readonly_amended_witness :
    Cycle.w_cycle ≠ Cycle.v_cycle ∧
    (cycle trivCollab 0 1 0 Cycle.w_cycle zeroState).defect =
      zeroState.defect :=
  ⟨by decide,
   C6_defect_readonly_amended trivCollab 0 1 0 Cycle.w_cycle zeroState
     (by decide)⟩

/-- C7: `reinit(min, max)` succeeds exactly when `min` is at least the
operator collection's coarsest level, `max` at most its finest and
`min ≤ max`; on success the new state has `minlevel = min ≤ max =
maxlevel` and the defect store's addressable range is exactly
`[minlevel, maxlevel]`; when any bound is violated the call fails with the
`ExcLowerRangeType` (InvalidRange) condition of the first failing
`Assert`, before any mutation (the error return carries no new state, so
`minlevel`, `maxlevel` and the defect store are left unchanged). -/
theorem C7_reinit_range (mat_min mat_max : Nat) (st : MGRangeState)
    (mn mx : Nat) :
    (mat_min ≤ mn → mx ≤ mat_max → mn ≤ mx →
      reinit mat_min mat_max st mn mx = Except.ok
        { minlevel := mn, maxlevel := mx, defect_lo := mn, defect_hi := mx }) ∧
    (¬ (mat_min ≤ mn ∧ mx ≤ mat_max ∧ mn ≤ mx) →
      ∃ a b, reinit mat_min mat_max st mn mx =
        Except.error (MGError.excLowerRange a b)) := by
  constructor
  · intro h1 h2 h3
    unfold reinit
    split_ifs <;> first | rfl | omega
  · intro h
    unfold reinit
    split_ifs <;> first | exact ⟨_, _, rfl⟩ | omega

/-- Witness for C7 at concrete instances (one success, one violation). -/
theorem C7_reinit_range_witness :
    reinit 1 5 ⟨0, 0, 0, 0⟩ 2 4 = Except.ok ⟨2, 4, 2, 4⟩ ∧
    ∃ a b, reinit 1 5 ⟨0, 0, 0, 0⟩ 4 2 =
      Except.error (MGError.excLowerRange a b) :=
  ⟨(C7_reinit_range 1 5 ⟨0, 0, 0, 0⟩ 2 4).1 (by decide) (by decide) (by decide),
   (C7_reinit_range 1 5 ⟨0, 0, 0, 0⟩ 4 2).2 (by decide)⟩

/-- C8 (counterexample): in `level_step` with both `edge_in` and `edge_up`
set, the two transpose applications are NOT both accumulated into
`t[level]`.  In the edge scenario the run reaches
`solution[1] = 7`, `solution[0] = 3`; had both contributions been present,
the recombined residual of step 11 would be
`defect[1] - (edge_inᵗ(solution[1]) + edge_upᵗ(solution[0])) - defect2[1]
= 4 - (7 + 3) - 0 = -6`, but the final `t[1]` is
`4 - edge_upᵗ(solution[0]) - 0 = 1`: `edge_up->Tvmult` (line 332)
overwrote the value written by `edge_in->Tvmult` (line 329). -/
theorem C8_counterexample :
    (level_step edgeCollab 0 0 1 Cycle.w_cycle edgeState).solution 1 = 7 ∧
    (level_step edgeCollab 0 0 1 Cycle.w_cycle edgeState).solution 0 = 3 ∧
    (level_step edgeCollab 0 0 1 Cycle.w_cycle edgeState).t 1 = 1 ∧
    (level_step edgeCollab 0 0 1 Cycle.w_cycle edgeState).t 1 ≠
      edgeState.defect 1 - ((7 : ℤ) + 3) - edgeState.defect2 1 := by
  refine ⟨by decide, by decide, by decide, by decide⟩

/-- C8 (amended): in `level_step`, for every level above `minlevel`, when
both `edge_in` and `edge_up` are set, both transpose applications are
computed into `t[level]` but the `edge_up` application overwrites the
`edge_in` one: the recombined residual of step 11 equals
`defect[level] - edge_upᵗ(solution[level-1]) - defect2[level]`, with no
`edge_in` contribution; and neither application writes to the defect
store (`level_step` never modifies it). -/
theorem C8_edge_tvmult_overwrite {V : Type} [AddCommGroup V]
    (c : Collab V) (minlevel debug l : Nat) (cy : Cycle) (s : MGState V)
    (f g : Nat → V → V) (hml : minlevel ≤ l)
    (hin : c.edge_in = some f) (hup : c.edge_up = some g) :
    ((level_step c minlevel debug (l + 1) cy s).t (l + 1) =
      -(g (l + 1) ((level_step c minlevel debug (l + 1) cy s).solution l)) -
        s.defect2 (l + 1) + s.defect (l + 1)) ∧
    (level_step c minlevel debug (l + 1) cy s).defect = s.defect :=
  ⟨level_step_edges_t c minlevel debug l cy s f g hml hin hup,
   level_step_defect c minlevel debug (l + 1) cy s⟩

/-- Witness for C8 (amended) at the edge scenario. -/
theorem C8_edge_tvmult_overwrite_witness :
    (0 : Nat) ≤ 0 ∧ edgeCollab.edge_in = some (fun _ v => v) ∧
    edgeCollab.edge_up = some (fun _ v => v) ∧
    (((level_step edgeCollab 0 0 1 Cycle.w_cycle edgeState).t 1 =
      -((fun (_ : Nat) (v : ℤ) => v) 1
          ((level_step edgeCollab 0 0 1 Cycle.w_cycle edgeState).solution 0)) -
        edgeState.defect2 1 + edgeState.defect 1) ∧
    (level_step edgeCollab 0 0 1 Cycle.w_cycle edgeState).defect =
      edgeState.defect) :=
  ⟨le_rfl, rfl, rfl,
   C8_edge_tvmult_overwrite edgeCollab 0 0 0 Cycle.w_cycle edgeState
     (fun _ v => v) (fun _ v => v) le_rfl rfl rfl⟩

/-- C9: the debug verbosity has no effect on numerical results: running
`cycle()` with the same level range, cycle type, collaborators and
initial state under any two debug settings yields identical final
`solution`, `defect`, `t` and `defect2` stores (only the `deallog`
stream differs). -/
theorem C9_debug_no_numeric_effect {V : Type} [AddCommGroup V]
    (c : Collab V) (minlevel maxlevel : Nat) (ct : Cycle) (s : MGState V)
    (d₁ d₂ : Nat) :
    (cycle c minlevel maxlevel d₁ ct s).solution =
      (cycle c minlevel maxlevel d₂ ct s).solution ∧
    (cycle c minlevel maxlevel d₁ ct s).defect =
      (cycle c minlevel maxlevel d₂ ct s).defect ∧
    (cycle c minlevel maxlevel d₁ ct s).t =
      (cycle c minlevel maxlevel d₂ ct s).t ∧
    (cycle c minlevel maxlevel d₁ ct s).defect2 =
      (cycle c minlevel maxlevel d₂ ct s).defect2 := by
  by_cases hct : ct = Cycle.v_cycle
  · simp only [cycle, if_pos hct]
    exact level_v_step_eqStores c minlevel d₁ d₂ maxlevel (eqStores_refl _)
  · simp only [cycle, if_neg hct, if_pos hct]
    exact level_step_eqStores c minlevel d₁ d₂ maxlevel ct (eqStores_refl _)

/-- C10: `set_minlevel(l, relative := true)` computes the argument passed
to `reinit` as `maxlevel - l` in `w`-bit unsigned arithmetic: it always
equals `(maxlevel - l) mod 2^w`; for `l ≤ maxlevel` this is exactly
`maxlevel - l`, and for `l > maxlevel` it is the wrapped-around value
`maxlevel + 2^w - l`, in which case the call fails through `reinit`'s
range checks (`ExcLowerRangeType`) — `set_minlevel` raises no dedicated
"l too large" error of its own. -/
theorem C10_set_minlevel_unsigned (w mat_min mat_max : Nat)
    (st : MGRangeState) (l : Nat) (hmax : st.maxlevel < 2 ^ w)
    (hl : l < 2 ^ w) :
    (set_minlevel w mat_min mat_max st l true =
      reinit mat_min mat_max st (usub w st.maxlevel l) st.maxlevel) ∧
    ((usub w st.maxlevel l : ℤ) =
      ((st.maxlevel : ℤ) - l) % ((2 ^ w : ℕ) : ℤ)) ∧
    (l ≤ st.maxlevel → usub w st.maxlevel l = st.maxlevel - l) ∧
    (st.maxlevel < l →
      usub w st.maxlevel l = st.maxlevel + 2 ^ w - l ∧
      ∃ a b, set_minlevel w mat_min mat_max st l true =
        Except.error (MGError.excLowerRange a b)) := by
  have hK : 0 < 2 ^ w := pow_pos (by norm_num) w
  refine ⟨rfl, ?_, ?_, ?_⟩
  · exact umod_int (2 ^ w) st.maxlevel l hK hmax hl
  · intro hle
    unfold usub
    have e : st.maxlevel + 2 ^ w - l = (st.maxlevel - l) + 2 ^ w := by omega
    rw [e, Nat.add_mod_right]
    exact Nat.mod_eq_of_lt (by omega)
  · intro hgt
    have husub : usub w st.maxlevel l = st.maxlevel + 2 ^ w - l := by
      unfold usub
      exact Nat.mod_eq_of_lt (by omega)
    refine ⟨husub, ?_⟩
    have hred : set_minlevel w mat_min mat_max st l true =
        reinit mat_min mat_max st (usub w st.maxlevel l) st.maxlevel := rfl
    rw [hred, husub]
    unfold reinit
    split_ifs <;> first | exact ⟨_, _, rfl⟩ | omega

/-- Witness for C10 at concrete instances (`w = 8`, `maxlevel = 3`,
wrapped case `l = 5`). -/
theorem C10_set_minlevel_unsigned_witness :
    (3 : Nat) < 2 ^ 8 ∧ (5 : Nat) < 2 ^ 8 ∧ (3 : Nat) < 5 ∧
    (usub 8 3 5 = 3 + 2 ^ 8 - 5 ∧
      ∃ a b, set_minlevel 8 0 9 ⟨0, 3, 0, 0⟩ 5 true =
        Except.error (MGError.excLowerRange a b)) :=
  ⟨by decide, by decide, by decide,
   (C10_set_minlevel_unsigned 8 0 9 ⟨0, 3, 0, 0⟩ 5 (by decide)
     (by decide)).2.2.2 (by decide)⟩

end Multigrid
